import Mathlib

/-!
Verification of the ingestion-reconciliation and analytics-aggregation core of
the TP-Reporting backend, as a shallow embedding in Lean 4.

The embedding follows the Python source:
  * `backend/app/tasks/sync_square_data.py` (`parse_and_store_order`,
    `sync_square_payments`),
  * `backend/app/services/summary_service.py`
    (`rebuild_daily_summaries_for_locations`),
  * `backend/app/api/v1/sales.py` (`get_sales_aggregation`,
    `_txn_matches_category`, `_base_sales_filter`),
  * `backend/app/services/exchange_rate_service.py` (`get_rates_to_gbp`),
  * `backend/app/services/client_catalog_service.py`
    (`recompute_client_mappings`).

Database tables are modelled as Lean lists of rows; SQL `GROUP BY` aggregation
is modelled as per-key filtered aggregation (its semantics); Python dict /
in-place mutation is modelled as association-list updates.  Money amounts are
minor units (`Int`); exchange rates are `ℚ` (the float arithmetic of the
source is modelled exactly over the rationals, with Python's banker's
`round`).  JSON payload fields that no modelled code path reads (e.g. line
item `uid`, `base_price_money`, `modifiers`) are omitted from the row types;
fields read with `.get` defaults are `Option` with the default applied at the
use site, exactly as in the source.
-/

namespace TPReporting

/-- Python's built-in `round`: round half to even (banker's rounding),
applied to an exact rational. -/
def pyRound (q : ℚ) : ℤ :=
  let f : ℤ := ⌊q⌋
  let r : ℚ := q - (f : ℚ)
  if r < 1/2 then f
  else if 1/2 < r then f + 1
  else if f % 2 = 0 then f else f + 1

/-- First-occurrence deduplication (the key order a Python dict built by
insertion produces, and the distinct keys of a grouped query). -/
def distinctKeys {α : Type} [DecidableEq α] : List α → List α
  | [] => []
  | x :: xs => x :: (distinctKeys xs).filter (fun y => y ≠ x)

/-- Replace the first element satisfying `p` (Python mutates the single row
returned by `.first()`; row keys are unique so first = only). -/
def updateFirst {α : Type} (p : α → Bool) (f : α → α) : List α → List α
  | [] => []
  | x :: xs => if p x then f x :: xs else x :: updateFirst p f xs

/-! ## Data model (`models/sales_transaction.py`, `models/location.py`,
Square order payloads as read by the sync task) -/

/-- A Square money object: `{"amount": ..., "currency": ...}`; either key may
be absent (read with `.get(..., 0)` / `.get(..., default)` in the source). -/
structure MoneyAmount where
  amount : Int
  currency : Option String
deriving DecidableEq, Repr

/-- One entry of an order's `"refunds"` list; the sync task reads only its
`"status"`. -/
structure RefundEntry where
  status : String
deriving DecidableEq, Repr

/-- One entry of an order's `"returns"` list; the summary service reads
`return_amounts.total_money.amount` and `return_amounts.tax_money.amount`
(defaulting to 0). -/
structure ReturnEntry where
  totalAmount : Int
  taxAmount : Int
deriving DecidableEq, Repr

/-- The fields of an order line item that the modelled code paths read. -/
structure LineItem where
  name : String
  quantity : Nat
  totalMoneyAmount : Int
  grossSalesAmount : Int
  /-- `item.get("catalog_object_id", "")`: empty string when absent. -/
  catalogObjectId : String
  variationName : String
deriving DecidableEq, Repr

/-- An order tender; the sync task reads `type` and card details of the
first tender. -/
structure Tender where
  ttype : Option String
  cardBrand : Option String
  lastFour : Option String
deriving DecidableEq, Repr

/-- A Square order object as consumed by `parse_and_store_order`.
`txDate`/`txHour` are the calendar date and hour extracted from
`created_at` (the source's datetime parsing). -/
structure Order where
  id : String
  locationId : String
  txDate : String
  txHour : Nat
  /-- `order.get("state", "UNKNOWN")`: absent means default "UNKNOWN". -/
  state : Option String
  /-- `net_amounts.total_money`. -/
  netTotal : MoneyAmount
  /-- `total_money`. -/
  totalMoney : MoneyAmount
  totalDiscount : Int
  totalTax : Int
  totalTip : Int
  tenders : List Tender
  lineItems : List LineItem
  refunds : List RefundEntry
  returns : List ReturnEntry
deriving DecidableEq, Repr

/-- A local location row (`models/location.py`): internal id, the Square
location id it mirrors, and its default currency. -/
structure Location where
  id : String
  squareLocationId : String
  currency : Option String
deriving DecidableEq, Repr

/-- A `sales_transactions` row. -/
structure SalesTransaction where
  locationId : String
  squareTransactionId : String
  txDate : String
  txHour : Nat
  amountMoneyAmount : Int
  amountMoneyCurrency : Option String
  totalMoneyAmount : Int
  totalMoneyCurrency : Option String
  totalDiscountAmount : Int
  totalTaxAmount : Int
  totalTipAmount : Int
  tenderType : Option String
  paymentStatus : String
  cardBrand : Option String
  lastFour : Option String
  lineItems : List LineItem
  rawData : Order
deriving DecidableEq, Repr

/-! ## `parse_and_store_order` (sync_square_data.py lines 29-177) -/

/-- `sorted([r.get("status") for r in refunds])`. -/
def sortedStatuses (rs : List RefundEntry) : List String :=
  List.insertionSort (· ≤ ·) (rs.map RefundEntry.status)

/-- The new-transaction record built at lines 130-161 of the source. -/
def mkTransaction (order : Order) (location : Location) : SalesTransaction :=
  { locationId := location.id
    squareTransactionId := order.id
    txDate := order.txDate
    txHour := order.txHour
    amountMoneyAmount := order.netTotal.amount
    amountMoneyCurrency := order.netTotal.currency <|> location.currency
    totalMoneyAmount := order.totalMoney.amount
    totalMoneyCurrency := order.totalMoney.currency <|> location.currency
    totalDiscountAmount := order.totalDiscount
    totalTaxAmount := order.totalTax
    totalTipAmount := order.totalTip
    tenderType := (order.tenders.head?).bind Tender.ttype
    paymentStatus := order.state.getD "UNKNOWN"
    cardBrand := (order.tenders.head?).bind Tender.cardBrand
    lastFour := (order.tenders.head?).bind Tender.lastFour
    lineItems := order.lineItems
    rawData := order }

/-- The in-place overwrite of the mutable fields at lines 115-122 of the
source (status, money totals, line items, raw record). -/
def applyOrderUpdate (order : Order) (t : SalesTransaction) : SalesTransaction :=
  { t with
    paymentStatus := order.state.getD "UNKNOWN"
    amountMoneyAmount := order.netTotal.amount
    totalMoneyAmount := order.totalMoney.amount
    totalDiscountAmount := order.totalDiscount
    totalTaxAmount := order.totalTax
    totalTipAmount := order.totalTip
    lineItems := order.lineItems
    rawData := order }

/-- `parse_and_store_order(db, order, locations)`, with the
`sales_transactions` table as an explicit list.  Returns the new table and
the `(stored, was_duplicate)` pair of the source. -/
def parse_and_store_order (store : List SalesTransaction) (order : Order)
    (locations : List Location) : List SalesTransaction × Bool × Bool :=
  let existing? := store.find? (fun t => t.squareTransactionId == order.id)
  match locations.find? (fun loc => loc.squareLocationId == order.locationId) with
  | none => (store, false, false)
  | some location =>
    let newStatus := order.state.getD "UNKNOWN"
    match existing? with
    | some existing =>
      let oldRefunds := existing.rawData.refunds
      let newRefunds := order.refunds
      let statusChanged := existing.paymentStatus ≠ newStatus
      let refundsChanged := newRefunds.length ≠ oldRefunds.length ∨
        sortedStatuses oldRefunds ≠ sortedStatuses newRefunds
      if statusChanged ∨ refundsChanged then
        (updateFirst (fun t => t.squareTransactionId == order.id)
          (applyOrderUpdate order) store, true, true)
      else
        (store, false, true)
    | none => (store ++ [mkTransaction order location], true, false)

/-! ## Daily summary rebuild (`summary_service.py`) -/

/-- An entry of a summary's `by_hour` map. -/
structure HourBucket where
  sales : Int
  tx : Nat
  items : Nat
deriving DecidableEq, Repr

/-- A `top_products` entry. -/
structure ProductStat where
  name : String
  qty : Nat
  revenue : Int
deriving DecidableEq, Repr

/-- A `daily_sales_summary` row. -/
structure DailySummary where
  locationId : String
  date : String
  total_sales : Int
  total_gross : Int
  transaction_count : Nat
  total_items : Nat
  total_tax : Int
  total_tips : Int
  total_discounts : Int
  total_refund_amount : Int
  refund_count : Nat
  by_tender_type : List (String × Int)
  by_hour : List (Nat × HourBucket)
  top_products : List ProductStat
  currency : String
deriving DecidableEq, Repr

/-- Python dict assignment `d[k] = v`: overwrite in place when the key is
present, append otherwise. -/
def setAssoc {α β : Type} [DecidableEq α] (k : α) (v : β) (l : List (α × β)) :
    List (α × β) :=
  if (l.find? (fun p => p.1 == k)).isSome then
    updateFirst (fun p => p.1 == k) (fun _ => (k, v)) l
  else l ++ [(k, v)]

/-- The COMPLETED-transactions subset for the target locations (the filter of
steps 1-4 of the rebuild). -/
def completedTxns (txns : List SalesTransaction) (locationIds : List String) :
    List SalesTransaction :=
  txns.filter (fun t =>
    locationIds.contains t.locationId && t.paymentStatus == "COMPLETED")

/-- The `(location_id, date(transaction_date))` grouping key. -/
def txnKey (t : SalesTransaction) : String × String := (t.locationId, t.txDate)

/-- Lexicographic code-point comparison on character lists (the ordering SQL
`MIN` applies to a text column). -/
def charListLe : List Char → List Char → Bool
  | [], _ => true
  | _ :: _, [] => false
  | a :: as, b :: bs =>
    if a.val.toNat < b.val.toNat then true
    else if b.val.toNat < a.val.toNat then false
    else charListLe as bs

/-- Lexicographic string comparison. -/
def strLe (a b : String) : Bool := charListLe a.data b.data

/-- SQL `MIN` over a string column: nulls are skipped, `none` when no
non-null value exists. -/
def sqlMinString (l : List String) : Option String :=
  l.foldl (fun acc c =>
    match acc with
    | none => some c
    | some m => some (if strLe m c then m else c)) none

/-- Step 2 of the rebuild: the tender-type breakdown of one
`(location, date)` group.  SQL groups by `tender_type` (null is its own
group); the Python loop then writes `buckets[key]["by_tender_type"][tender]`
with `tender = row.tender_type or "OTHER"` (dict assignment, not `+=`). -/
def tenderBreakdown (g : List SalesTransaction) : List (String × Int) :=
  (distinctKeys (g.map (·.tenderType))).foldl (fun acc tt =>
    let amount := ((g.filter (fun t => t.tenderType == tt)).map
      (·.amountMoneyAmount)).sum
    setAssoc (tt.getD "OTHER") amount acc) []

/-- Step 3 of the rebuild: the hourly breakdown of one `(location, date)`
group; items start at 0 and are filled by the line-items pass. -/
def hourBreakdown (g : List SalesTransaction) : List (Nat × HourBucket) :=
  (distinctKeys (g.map (·.txHour))).foldl (fun acc h =>
    let hg := g.filter (fun t => t.txHour == h)
    setAssoc h ⟨(hg.map (·.amountMoneyAmount)).sum, hg.length, 0⟩ acc) []

/-- Step 1 of the rebuild: the core bucket of one `(location, date)` key,
computed by grouped SQL aggregation over the COMPLETED subset. -/
def buildBucket (completed : List SalesTransaction) (k : String × String) :
    DailySummary :=
  let g := completed.filter (fun t => t.locationId == k.1 && t.txDate == k.2)
  { locationId := k.1
    date := k.2
    total_sales := (g.map (·.amountMoneyAmount)).sum
    total_gross := (g.map (·.totalMoneyAmount)).sum
    transaction_count := g.length
    total_items := 0
    total_tax := (g.map (·.totalTaxAmount)).sum
    total_tips := (g.map (·.totalTipAmount)).sum
    total_discounts := (g.map (·.totalDiscountAmount)).sum
    total_refund_amount := 0
    refund_count := 0
    by_tender_type := tenderBreakdown g
    by_hour := hourBreakdown g
    top_products := []
    currency := (sqlMinString (g.filterMap (·.amountMoneyCurrency))).getD "GBP" }

/-- `items_count` of one scanned row: the summed line-item quantities. -/
def lineItemsQty (t : SalesTransaction) : Nat :=
  (t.lineItems.map (·.quantity)).sum

/-- `if h in buckets[key]["by_hour"]: ... += items_count`: bump the items
count of hour `h` when that hour bucket exists. -/
def bumpHourItems (byHour : List (Nat × HourBucket)) (h : Nat) (n : Nat) :
    List (Nat × HourBucket) :=
  updateFirst (fun p => p.1 == h)
    (fun p => (p.1, { p.2 with items := p.2.items + n })) byHour

/-- `product_agg[key][name]["qty"] += qty; ...["revenue"] += rev` on a
defaultdict: update in place when present, append a fresh entry otherwise. -/
def bumpProduct (acc : List ProductStat) (name : String) (qty : Nat)
    (rev : Int) : List ProductStat :=
  if (acc.find? (fun p => p.name == name)).isSome then
    updateFirst (fun p => p.name == name)
      (fun p => { p with qty := p.qty + qty, revenue := p.revenue + rev }) acc
  else acc ++ [⟨name, qty, rev⟩]

/-- The per-key product aggregation of step 4 (line items of the key's rows,
in row order). -/
def productStats (g : List SalesTransaction) : List ProductStat :=
  ((g.map (·.lineItems)).flatten).foldl
    (fun acc item => bumpProduct acc item.name item.quantity
      item.totalMoneyAmount) []

/-- `sorted(..., key=revenue, reverse=True)[:50]`: stable descending sort by
revenue, capped at 50. -/
def topProducts (g : List SalesTransaction) : List ProductStat :=
  ((productStats g).insertionSort (fun a b => b.revenue ≤ a.revenue)).take 50

/-- Step 4 of the rebuild: one scan over the COMPLETED rows' line items,
accumulating per-key item totals, hourly item counts and top products.  Each
scanned row contributes only to its own `(location, date)` bucket, so the
scan is the per-bucket accumulation below; rows with an empty line-item list
contribute nothing (the source's `if row.line_items:` guard). -/
def applyLineItemsPass (buckets : List DailySummary)
    (completed : List SalesTransaction) : List DailySummary :=
  buckets.map (fun b =>
    let g := completed.filter (fun t =>
      t.locationId == b.locationId && t.txDate == b.date)
    { b with
      total_items := b.total_items + (g.map lineItemsQty).sum
      by_hour := g.foldl
        (fun bh t => bumpHourItems bh t.txHour (lineItemsQty t)) b.by_hour
      top_products := topProducts g })

/-- The per-row refund amount of step 5: for each return entry,
`total_money.amount - tax_money.amount` (tax-exclusive). -/
def returnsDelta (t : SalesTransaction) : Int :=
  t.rawData.returns.foldl (fun a ret => a + (ret.totalAmount - ret.taxAmount)) 0

/-- Step 5 of the rebuild: for every scanned row with at least one return
entry, when the row's `(location, date)` bucket exists, bump `refund_count`
and accumulate the ex-tax return amounts. -/
def applyReturnsPass (buckets : List DailySummary)
    (returnTxns : List SalesTransaction) : List DailySummary :=
  returnTxns.foldl (fun bs t =>
    updateFirst (fun b => b.locationId == t.locationId && b.date == t.txDate)
      (fun b => { b with
        refund_count := b.refund_count + 1
        total_refund_amount := b.total_refund_amount + returnsDelta t }) bs)
    buckets

/-- `rebuild_daily_summaries_for_locations(db, location_ids)`: the freshly
inserted summary rows (the old rows for the location set are deleted and
fully replaced by these).  Note the step-5 source filter selects every row of
the target locations whose raw record has a non-empty `returns` array,
without a payment-status condition. -/
def rebuild_daily_summaries_for_locations (txns : List SalesTransaction)
    (locationIds : List String) : List DailySummary :=
  if locationIds.isEmpty then [] else
  let completed := completedTxns txns locationIds
  let keys := distinctKeys (completed.map txnKey)
  let buckets := keys.map (buildBucket completed)
  let buckets2 := applyLineItemsPass buckets completed
  let returnTxns := txns.filter (fun t =>
    locationIds.contains t.locationId && !t.rawData.returns.isEmpty)
  applyReturnsPass buckets2 returnTxns

/-! ## Exchange rates (`exchange_rate_service.py`)

A configured `exchange_rates` row with target GBP is a pair
`(from_currency, rate)` with `gbp_amount = foreign_amount * rate`; the
organization's rows are a list with distinct `from_currency` (unique per
(organization, source currency) per the data model). -/

/-- `get_rates_to_gbp(db, org_id, currencies)`: a rate for every requested
currency (GBP ↦ 1, configured ↦ its rate, otherwise the 1.0 fallback), plus
`has_rates = len(rate_map) > 0`. -/
def get_rates_to_gbp (rateRows : List (String × ℚ)) (currencies : List String) :
    List (String × ℚ) × Bool :=
  let hasRates := !rateRows.isEmpty
  (currencies.map (fun curr =>
    (curr, if curr = "GBP" then 1 else
      match rateRows.lookup curr with
      | some r => r
      | none => 1)), hasRates)

/-- `rates.get(cur, 1.0)` on the returned rate dict. -/
def rateOf (rates : List (String × ℚ)) (c : String) : ℚ :=
  (rates.lookup c).getD 1

/-- `rates_warning = None if rates_live else "..."` (the advisory attached to
the response in `_fast_summary_category_mode`, sales.py line 2645). -/
def ratesWarning (ratesLive : Bool) : Option String :=
  if ratesLive then none
  else some "Exchange rates unavailable - amounts shown without conversion"

/-! ## Sales aggregation (`sales.py`, `get_sales_aggregation`) -/

/-- `_base_sales_filter` with `completed_only=True`: location set, date
window (abstracted as a predicate on the row), COMPLETED status. -/
def base_sales_filter (txns : List SalesTransaction) (locationIds : List String)
    (inWindow : SalesTransaction → Bool) : List SalesTransaction :=
  txns.filter (fun t => locationIds.contains t.locationId && inWindow t &&
    t.paymentStatus == "COMPLETED")

/-- `_txn_matches_category`: some line item's catalog object id is in the
client's product set. -/
def txn_matches_category (lineItems : List LineItem) (catIds : List String) :
    Bool :=
  lineItems.any (fun item => catIds.contains item.catalogObjectId)

/-- The location-mode branch's grouped query: one row per distinct
`amount_money_currency` value (null is its own group) with the group's raw
subtotal and transaction count. -/
def locationModeRows (filtered : List SalesTransaction) :
    List (Option String × Int × Nat) :=
  (distinctKeys (filtered.map (·.amountMoneyCurrency))).map (fun c =>
    let g := filtered.filter (fun t => t.amountMoneyCurrency == c)
    (c, (g.map (·.amountMoneyAmount)).sum, g.length))

/-- The location-mode branch of `get_sales_aggregation` (lines 466-503):
convert each currency group's subtotal independently and sum.  Returns
`(total_sales, total_transactions)`. -/
def get_sales_aggregation_location_mode (filtered : List SalesTransaction)
    (rateRows : List (String × ℚ)) : Int × Nat :=
  let rows := locationModeRows filtered
  let allCur := distinctKeys (rows.map (fun r => r.1.getD "GBP"))
  let rates := (get_rates_to_gbp rateRows
    (if allCur.isEmpty then ["GBP"] else allCur)).1
  rows.foldl (fun (acc : Int × Nat) r =>
    (acc.1 + pyRound ((r.2.1 : ℚ) * rateOf rates (r.1.getD "GBP")),
     acc.2 + r.2.2)) (0, 0)

/-- The category-mode branch of `get_sales_aggregation` (lines 447-464):
keep only transactions with a matching line item, convert each transaction's
amount individually (rounding per transaction) and sum. -/
def get_sales_aggregation_category_mode (filtered : List SalesTransaction)
    (catIds : List String) (rateRows : List (String × ℚ)) : Int × Nat :=
  if catIds.isEmpty then (0, 0) else
  let rawRows := (filtered.filter
    (fun t => txn_matches_category t.lineItems catIds)).map
    (fun t => (t.amountMoneyAmount, t.amountMoneyCurrency.getD "GBP"))
  let allCur := distinctKeys (rawRows.map (·.2))
  let rates := (get_rates_to_gbp rateRows
    (if allCur.isEmpty then ["GBP"] else allCur)).1
  ((rawRows.map (fun r => pyRound ((r.1 : ℚ) * rateOf rates r.2))).sum,
   rawRows.length)

/-- The effective rate both aggregation branches end up applying to a
currency label they observed: 1 for GBP, the configured rate when present,
the 1.0 fallback otherwise. -/
def effRate (rateRows : List (String × ℚ)) (c : String) : ℚ :=
  if c = "GBP" then 1 else (rateRows.lookup c).getD 1

/-- Spec-side comparison value (not source code): the category-mode revenue
total with exact rational arithmetic in place of the per-transaction
`round`. -/
def categoryModeExactTotal (filtered : List SalesTransaction)
    (catIds : List String) (rateRows : List (String × ℚ)) : ℚ :=
  ((filtered.filter (fun t => txn_matches_category t.lineItems catIds)).map
    (fun t => (t.amountMoneyAmount : ℚ) *
      effRate rateRows (t.amountMoneyCurrency.getD "GBP"))).sum

/-- Spec-side comparison value (not source code): the location-mode revenue
total with exact rational arithmetic in place of the per-group `round`. -/
def locationModeExactTotal (filtered : List SalesTransaction)
    (rateRows : List (String × ℚ)) : ℚ :=
  ((locationModeRows filtered).map (fun r =>
    (r.2.1 : ℚ) * effRate rateRows (r.1.getD "GBP"))).sum

/-! ## Catalog keyword matcher (`client_catalog_service.py`) -/

/-- A `catalog_categories` row as loaded by `recompute_client_mappings`:
id, name, parent id, and the names along `path_to_root`. -/
structure CatalogCategory where
  squareCategoryId : String
  name : String
  parentCategoryId : Option String
  pathToRoot : List String
deriving DecidableEq, Repr

/-- A `catalog_item_categories` membership row. -/
structure CatalogItemCategoryMembership where
  catalogObjectId : String
  categoryId : String
deriving DecidableEq, Repr

/-- The `children_map` built from `parent_category_id` (children in table
order). -/
def childrenMap (cats : List CatalogCategory) (parentId : String) :
    List String :=
  (cats.filter (fun c => c.parentCategoryId == some parentId)).map
    (·.squareCategoryId)

/-- `kw_lower in name.lower()`: case-insensitive (character-wise lowered)
substring test. -/
def keywordMatches (kw name : String) : Bool :=
  decide ((kw.toList.map Char.toLower) <:+: (name.toList.map Char.toLower))

/-- `all_names`: the category's own name plus every ancestor name in
`path_to_root`. -/
def catNames (c : CatalogCategory) : List String := c.name :: c.pathToRoot

/-- The directly matched category ids: some keyword is a case-insensitive
substring of some name in the category's chain. -/
def directlyMatchedCats (cats : List CatalogCategory)
    (keywords : List String) : List String :=
  (cats.filter (fun c =>
    keywords.any (fun kw => (catNames c).any (keywordMatches kw)))).map
    (·.squareCategoryId)

/-- `_add_descendants`: depth-first insertion of all children not yet in the
set, recursing on each newly inserted child.  The Python recursion has no
fuel; it terminates because every call inserts a fresh id from the finite id
universe before recursing.  The `fuel` parameter is the Lean termination
device; `cats.length + 1` is always sufficient (each recursive call inserts
a fresh category id into `acc`). -/
def addDescendants (children : String → List String) :
    Nat → List String → String → List String
  | 0, acc, _ => acc
  | fuel + 1, acc, catId =>
    (children catId).foldl (fun a child =>
      if child ∈ a then a
      else addDescendants children fuel (child :: a) child) acc

/-- The outer loop `for cat_id in list(matching_cat_ids): _add_descendants`:
the snapshot of the direct matches is traversed while the shared set keeps
growing. -/
def expandMatches (children : String → List String) (fuel : Nat)
    (s0 : List String) : List String :=
  s0.foldl (fun acc c => addDescendants children fuel acc c) s0

/-- `recompute_client_mappings` for one client: the recomputed product set
(the `catalog_object_id`s of the fully replaced mapping rows; the
matched-keyword attribution stored alongside each id does not affect
membership and is omitted). -/
def recompute_client_mappings (cats : List CatalogCategory)
    (memberships : List CatalogItemCategoryMembership)
    (keywords : List String) : List String :=
  if keywords.isEmpty then [] else
  let matched := expandMatches (childrenMap cats) (cats.length + 1)
    (directlyMatchedCats cats keywords)
  distinctKeys ((memberships.filter
    (fun m => matched.contains m.categoryId)).map (·.catalogObjectId))

/-! ## The sync task (`sync_square_data.py`, `sync_square_payments`) -/

/-- The slice of a `square_accounts` row the sync task mutates. -/
structure SquareAccount where
  lastSyncAt : Option Nat
deriving DecidableEq, Repr

/-- One pass's upstream input: the orders processed before any failure, and
whether the pass then raised (aborting only the remainder of that pass — the
source catches the exception at the pass boundary and merely logs it). -/
structure PassInput where
  orders : List Order
  aborted : Bool
deriving DecidableEq, Repr

/-- Process one fetched page (or pass) of orders in sequence, recording each
order's `(stored, was_duplicate)` flags. -/
def processPage (store : List SalesTransaction) (page : List Order)
    (locations : List Location) : List SalesTransaction × List (Bool × Bool) :=
  match page with
  | [] => (store, [])
  | o :: rest =>
    let r := parse_and_store_order store o locations
    let rest' := processPage r.1 rest locations
    (rest'.1, r.2 :: rest'.2)

/-- Orders counted `created` by a pass: `stored and not was_dup`. -/
def countCreated (flags : List (Bool × Bool)) : Nat := flags.count (true, false)

/-- Orders counted `updated` by a pass: `stored and was_dup`. -/
def countUpdated (flags : List (Bool × Bool)) : Nat := flags.count (true, true)

/-- Orders counted `skipped_duplicate`: found with no difference, no write. -/
def countSkipped (flags : List (Bool × Bool)) : Nat := flags.count (false, true)

/-- The observable outcome of one `sync_square_payments` invocation. -/
structure SyncOutcome where
  store : List SalesTransaction
  account : SquareAccount
  totalSynced : Nat
  totalUpdated : Nat
deriving DecidableEq, Repr

/-- `sync_square_payments` around its three passes: pass 1 counts `created`
only; passes 2 and 3 count `created` and `updated`.  Each pass body sits in
a `try/except` that logs and falls through, so a pass's `aborted` flag never
reaches the code after the passes; lines 342-344 then set
`account.last_sync_at = end_time` and commit unconditionally. -/
def sync_square_payments (store : List SalesTransaction)
    (account : SquareAccount) (locations : List Location)
    (pass1 pass2 pass3 : PassInput) (endTime : Nat) : SyncOutcome :=
  let r1 := processPage store pass1.orders locations
  let r2 := processPage r1.1 pass2.orders locations
  let r3 := processPage r2.1 pass3.orders locations
  { store := r3.1
    account := { account with lastSyncAt := some endTime }
    totalSynced := countCreated r1.2 + countCreated r2.2 + countCreated r3.2
    totalUpdated := countUpdated r2.2 + countUpdated r3.2 }

/-! ## Helper lemmas -/

theorem find?_updateFirst {α : Type} (p : α → Bool) (f : α → α) (l : List α)
    (x : α) (hfind : l.find? p = some x)
    (hpf : ∀ y, p y = true → p (f y) = true) :
    (updateFirst p f l).find? p = some (f x) := by
  induction l with
  | nil => simp at hfind
  | cons a as ih =>
    by_cases hpa : p a = true
    · rw [List.find?_cons_of_pos _ hpa] at hfind
      injection hfind with hax
      subst hax
      simp only [updateFirst, hpa, if_true]
      exact List.find?_cons_of_pos _ (hpf a hpa)
    · rw [List.find?_cons_of_neg _ hpa] at hfind
      have hpa' : ¬ p a = true := hpa
      simp only [updateFirst, if_neg hpa']
      rw [List.find?_cons_of_neg _ hpa]
      exact ih hfind

theorem applyOrderUpdate_id (order : Order) (t : SalesTransaction) :
    (applyOrderUpdate order t).squareTransactionId = t.squareTransactionId :=
  rfl

/-! ## C2: update detection -/

/-- C2: re-ingesting a stored external id where the payment status differs,
or where the multiset of embedded refund-entry statuses differs (entry count
or per-entry status), overwrites the mutable fields in place and returns the
`(stored=True, was_duplicate=True)` pair counted as exactly one `updated`;
the stored row afterwards is the old row with status, money totals, line
items and raw record (hence return/refund entries) taken from the new order.
If neither differs, no write occurs and the pair is `(False, True)`. -/
theorem C2_update_detection (store : List SalesTransaction) (order : Order)
    (locations : List Location) (t0 : SalesTransaction) (loc : Location)
    (hfind : store.find? (fun t => t.squareTransactionId == order.id) = some t0)
    (hloc : locations.find? (fun l => l.squareLocationId == order.locationId) =
      some loc) :
    ((t0.paymentStatus ≠ order.state.getD "UNKNOWN" ∨
        order.refunds.length ≠ t0.rawData.refunds.length ∨
        sortedStatuses t0.rawData.refunds ≠ sortedStatuses order.refunds) →
      parse_and_store_order store order locations =
        (updateFirst (fun t => t.squareTransactionId == order.id)
          (applyOrderUpdate order) store, true, true) ∧
      (updateFirst (fun t => t.squareTransactionId == order.id)
          (applyOrderUpdate order) store).find?
          (fun t => t.squareTransactionId == order.id) =
        some (applyOrderUpdate order t0) ∧
      (applyOrderUpdate order t0).paymentStatus = order.state.getD "UNKNOWN" ∧
      (applyOrderUpdate order t0).rawData = order) ∧
    ((t0.paymentStatus = order.state.getD "UNKNOWN" ∧
        order.refunds.length = t0.rawData.refunds.length ∧
        sortedStatuses t0.rawData.refunds = sortedStatuses order.refunds) →
      parse_and_store_order store order locations = (store, false, true)) := by
  constructor
  · intro hdiff
    refine ⟨?_, ?_, rfl, rfl⟩
    · simp only [parse_and_store_order, hfind, hloc]
      rw [if_pos]
      rcases hdiff with h | h | h
      · exact Or.inl h
      · exact Or.inr (Or.inl h)
      · exact Or.inr (Or.inr h)
    · exact find?_updateFirst _ _ store t0 hfind
        (fun y hy => by simpa [applyOrderUpdate_id] using hy)
  · intro heq
    simp only [parse_and_store_order, hfind, hloc]
    rw [if_neg]
    push_neg
    exact ⟨heq.1, heq.2.1, heq.2.2⟩

/-- Witness for C2 at a concrete input: a stored transaction with status
"OPEN" re-ingested as "COMPLETED" is overwritten in place and reported as
one update. -/
theorem C2_update_detection_witness :
    parse_and_store_order
      [mkTransaction
        ⟨"O1", "SQ1", "2024-01-01", 10, some "OPEN", ⟨2000, some "EUR"⟩,
          ⟨2100, some "EUR"⟩, 0, 0, 0, [], [], [], []⟩
        ⟨"L1", "SQ1", some "GBP"⟩]
      ⟨"O1", "SQ1", "2024-01-01", 10, some "COMPLETED", ⟨2000, some "EUR"⟩,
        ⟨2100, some "EUR"⟩, 0, 0, 0, [], [], [], []⟩
      [⟨"L1", "SQ1", some "GBP"⟩] =
    ([applyOrderUpdate
        ⟨"O1", "SQ1", "2024-01-01", 10, some "COMPLETED", ⟨2000, some "EUR"⟩,
          ⟨2100, some "EUR"⟩, 0, 0, 0, [], [], [], []⟩
        (mkTransaction
          ⟨"O1", "SQ1", "2024-01-01", 10, some "OPEN", ⟨2000, some "EUR"⟩,
            ⟨2100, some "EUR"⟩, 0, 0, 0, [], [], [], []⟩
          ⟨"L1", "SQ1", some "GBP"⟩)], true, true) := by
  have h := C2_update_detection
    [mkTransaction
      ⟨"O1", "SQ1", "2024-01-01", 10, some "OPEN", ⟨2000, some "EUR"⟩,
        ⟨2100, some "EUR"⟩, 0, 0, 0, [], [], [], []⟩
      ⟨"L1", "SQ1", some "GBP"⟩]
    ⟨"O1", "SQ1", "2024-01-01", 10, some "COMPLETED", ⟨2000, some "EUR"⟩,
      ⟨2100, some "EUR"⟩, 0, 0, 0, [], [], [], []⟩
    [⟨"L1", "SQ1", some "GBP"⟩]
    (mkTransaction
      ⟨"O1", "SQ1", "2024-01-01", 10, some "OPEN", ⟨2000, some "EUR"⟩,
        ⟨2100, some "EUR"⟩, 0, 0, 0, [], [], [], []⟩
      ⟨"L1", "SQ1", some "GBP"⟩)
    ⟨"L1", "SQ1", some "GBP"⟩ (by decide) (by decide)
  have h2 := (h.1 (Or.inl (by decide))).1
  simpa using h2

/-! ## C1: idempotent ingestion — branch lemmas -/

theorem find?_append_right {α : Type} (p : α → Bool) (l₁ l₂ : List α)
    (h : l₁.find? p = none) : (l₁ ++ l₂).find? p = l₂.find? p := by
  induction l₁ with
  | nil => rfl
  | cons a as ih =>
    rw [List.find?_cons] at h
    cases hpa : p a with
    | true => rw [hpa] at h; exact absurd h (by simp)
    | false =>
      rw [hpa] at h
      rw [List.cons_append, List.find?_cons, hpa]
      exact ih h

theorem find?_append_singleton_false {α : Type} (q : α → Bool) (l : List α)
    (b : α) (hb : q b = false) : (l ++ [b]).find? q = l.find? q := by
  induction l with
  | nil => simp [List.find?_cons, hb]
  | cons a as ih =>
    rw [List.cons_append, List.find?_cons, List.find?_cons]
    cases q a with
    | true => rfl
    | false => exact ih

theorem find?_updateFirst_of_ne {α : Type} (p q : α → Bool) (f : α → α)
    (l : List α) (hdisj : ∀ x, p x = true → q x = false)
    (hq : ∀ x, q (f x) = q x) :
    (updateFirst p f l).find? q = l.find? q := by
  induction l with
  | nil => rfl
  | cons a as ih =>
    by_cases hpa : p a = true
    · simp only [updateFirst, if_pos hpa]
      rw [List.find?_cons, List.find?_cons, hq a, hdisj a hpa]
    · simp only [updateFirst, if_neg hpa]
      rw [List.find?_cons, List.find?_cons]
      cases q a with
      | true => rfl
      | false => exact ih

theorem filter_updateFirst_of_ne {α : Type} (p q : α → Bool) (f : α → α)
    (l : List α) (hdisj : ∀ x, p x = true → q x = false)
    (hq : ∀ x, q (f x) = q x) :
    (updateFirst p f l).filter q = l.filter q := by
  induction l with
  | nil => rfl
  | cons a as ih =>
    by_cases hpa : p a = true
    · simp only [updateFirst, if_pos hpa]
      rw [List.filter_cons, List.filter_cons, hq a, hdisj a hpa]
      simp [ih]
    · simp only [updateFirst, if_neg hpa]
      rw [List.filter_cons, List.filter_cons]
      cases q a with
      | true => simp only [ih]
      | false => exact ih

/-- Dedup rule, not-found branch: insert as new, count `created`. -/
theorem parse_create (store : List SalesTransaction) (order : Order)
    (locations : List Location) (loc : Location)
    (hnone : store.find? (fun t => t.squareTransactionId == order.id) = none)
    (hloc : locations.find? (fun l => l.squareLocationId == order.locationId) =
      some loc) :
    parse_and_store_order store order locations =
      (store ++ [mkTransaction order loc], true, false) := by
  simp only [parse_and_store_order, hnone, hloc]

/-- Dedup rule, found-no-difference branch: no write, count
`skipped_duplicate`. -/
theorem parse_skip (store : List SalesTransaction) (order : Order)
    (locations : List Location) (t0 : SalesTransaction) (loc : Location)
    (hfind : store.find? (fun t => t.squareTransactionId == order.id) = some t0)
    (hloc : locations.find? (fun l => l.squareLocationId == order.locationId) =
      some loc)
    (hstat : t0.paymentStatus = order.state.getD "UNKNOWN")
    (href : t0.rawData.refunds = order.refunds) :
    parse_and_store_order store order locations = (store, false, true) := by
  simp only [parse_and_store_order, hfind, hloc]
  rw [if_neg]
  push_neg
  exact ⟨hstat, by rw [href], by rw [href]⟩

/-- Processing an order never disturbs rows of a different external id, in
any branch of the dedup rule. -/
theorem parse_preserves_other (store : List SalesTransaction) (order : Order)
    (locations : List Location) (i : String) (hne : order.id ≠ i) :
    ((parse_and_store_order store order locations).1.find?
        (fun t => t.squareTransactionId == i) =
      store.find? (fun t => t.squareTransactionId == i)) ∧
    ((parse_and_store_order store order locations).1.filter
        (fun t => t.squareTransactionId == i) =
      store.filter (fun t => t.squareTransactionId == i)) := by
  have hdisj : ∀ t : SalesTransaction,
      (t.squareTransactionId == order.id) = true →
      (t.squareTransactionId == i) = false := by
    intro t ht
    rw [beq_iff_eq] at ht
    rw [beq_eq_false_iff_ne, ht]
    exact hne
  have hq : ∀ t : SalesTransaction,
      ((applyOrderUpdate order t).squareTransactionId == i) =
      (t.squareTransactionId == i) := fun t => rfl
  simp only [parse_and_store_order]
  cases hL : locations.find? (fun l => l.squareLocationId == order.locationId) with
  | none => exact ⟨rfl, rfl⟩
  | some loc =>
    cases hE : store.find? (fun t => t.squareTransactionId == order.id) with
    | none =>
      have hmk : ((mkTransaction order loc).squareTransactionId == i) = false := by
        rw [beq_eq_false_iff_ne]
        exact hne
      constructor
      · exact find?_append_singleton_false _ store _ hmk
      · rw [List.filter_append, List.filter_cons, hmk]
        simp
    | some t0 =>
      by_cases hcond : (t0.paymentStatus ≠ order.state.getD "UNKNOWN" ∨
          order.refunds.length ≠ t0.rawData.refunds.length ∨
          sortedStatuses t0.rawData.refunds ≠ sortedStatuses order.refunds)
      · simp only [if_pos hcond]
        exact ⟨find?_updateFirst_of_ne _ _ _ store hdisj hq,
          filter_updateFirst_of_ne _ _ _ store hdisj hq⟩
      · simp only [if_neg hcond]
        exact ⟨trivial, trivial⟩

theorem processPage_preserves_other (page : List Order)
    (store : List SalesTransaction) (locations : List Location) (i : String)
    (hne : ∀ o ∈ page, o.id ≠ i) :
    ((processPage store page locations).1.find?
        (fun t => t.squareTransactionId == i) =
      store.find? (fun t => t.squareTransactionId == i)) ∧
    ((processPage store page locations).1.filter
        (fun t => t.squareTransactionId == i) =
      store.filter (fun t => t.squareTransactionId == i)) := by
  induction page generalizing store with
  | nil => exact ⟨rfl, rfl⟩
  | cons o rest ih =>
    have h1 := parse_preserves_other store o locations i (hne o (by simp))
    have h2 := ih (parse_and_store_order store o locations).1
      (fun o' ho' => hne o' (by simp [ho']))
    exact ⟨h2.1.trans h1.1, h2.2.trans h1.2⟩

theorem count_map_const {α β : Type} [BEq β] [LawfulBEq β] (l : List α)
    (b : β) : (l.map (fun _ => b)).count b = l.length := by
  induction l with
  | nil => rfl
  | cons a as ih => simp [List.count_cons, ih]

/-- Processing a page of orders whose ids are pairwise distinct, resolvable
to known locations, and absent from the store: every order is inserted as
new and flagged `(stored, not duplicate)`; afterwards there is exactly one
row per external id, and its content is `mkTransaction`. -/
theorem processPage_fresh (page : List Order) (store : List SalesTransaction)
    (locations : List Location)
    (hnodup : (page.map Order.id).Nodup)
    (hloc : ∀ o ∈ page, ∃ loc, locations.find?
      (fun l => l.squareLocationId == o.locationId) = some loc)
    (hfresh : ∀ o ∈ page, ∀ t ∈ store, t.squareTransactionId ≠ o.id) :
    (processPage store page locations).2 =
      page.map (fun _ => (true, false)) ∧
    ∀ o ∈ page, ∃ loc,
      locations.find? (fun l => l.squareLocationId == o.locationId) =
        some loc ∧
      (processPage store page locations).1.find?
        (fun t => t.squareTransactionId == o.id) =
        some (mkTransaction o loc) ∧
      ((processPage store page locations).1.filter
        (fun t => t.squareTransactionId == o.id)).length = 1 := by
  induction page generalizing store with
  | nil => exact ⟨rfl, by intro o ho; exact absurd ho (List.not_mem_nil o)⟩
  | cons o rest ih =>
    obtain ⟨loc, hlocO⟩ := hloc o (by simp)
    have hnone : store.find? (fun t => t.squareTransactionId == o.id) = none := by
      rw [List.find?_eq_none]
      intro t ht
      simpa using hfresh o (by simp) t ht
    have hcreate := parse_create store o locations loc hnone hlocO
    have hid_notin : o.id ∉ rest.map Order.id := by
      have := hnodup
      rw [List.map_cons, List.nodup_cons] at this
      exact this.1
    have hne_rest : ∀ o' ∈ rest, o'.id ≠ o.id := by
      intro o' ho' hcontra
      exact hid_notin (by rw [← hcontra]; exact List.mem_map_of_mem Order.id ho')
    have hfresh' : ∀ o' ∈ rest,
        ∀ t ∈ store ++ [mkTransaction o loc], t.squareTransactionId ≠ o'.id := by
      intro o' ho' t ht
      rcases List.mem_append.mp ht with h | h
      · exact hfresh o' (by simp [ho']) t h
      · have : t = mkTransaction o loc := by simpa using h
        rw [this]
        exact fun hcontra => hne_rest o' ho' hcontra.symm
    have hnodup' : (rest.map Order.id).Nodup := by
      rw [List.map_cons, List.nodup_cons] at hnodup
      exact hnodup.2
    have hIH := ih (store ++ [mkTransaction o loc]) hnodup'
      (fun o' ho' => hloc o' (by simp [ho'])) hfresh'
    have hstep : processPage store (o :: rest) locations =
        ((processPage (store ++ [mkTransaction o loc]) rest locations).1,
         (true, false) ::
           (processPage (store ++ [mkTransaction o loc]) rest locations).2) := by
      simp only [processPage, hcreate]
    constructor
    · rw [hstep, List.map_cons, hIH.1]
    · intro o' ho'
      rcases List.mem_cons.mp ho' with h | h
      · rw [h]
        refine ⟨loc, hlocO, ?_, ?_⟩
        · rw [hstep]
          have hpres := processPage_preserves_other rest
            (store ++ [mkTransaction o loc]) locations o.id hne_rest
          rw [hpres.1, find?_append_right _ store _ hnone]
          rw [List.find?_cons]
          have hmk : ((mkTransaction o loc).squareTransactionId == o.id) = true := by
            simp [mkTransaction]
          rw [hmk]
        · rw [hstep]
          have hpres := processPage_preserves_other rest
            (store ++ [mkTransaction o loc]) locations o.id hne_rest
          rw [hpres.2, List.filter_append]
          have hfil : store.filter (fun t => t.squareTransactionId == o.id) = [] := by
            rw [List.filter_eq_nil_iff]
            intro t ht
            simpa using hfresh o (by simp) t ht
          have hmk : ((mkTransaction o loc).squareTransactionId == o.id) = true := by
            simp [mkTransaction]
          rw [hfil, List.filter_cons, hmk]
          simp
      · obtain ⟨loc', h1, h2, h3⟩ := hIH.2 o' h
        refine ⟨loc', h1, ?_, ?_⟩
        · rw [hstep]; exact h2
        · rw [hstep]; exact h3

/-- Replaying a page against a store that already holds, for each order, a
first-matching row with the same status and the same embedded refund
entries: no write happens and every order is flagged `skipped_duplicate`. -/
theorem processPage_replay (page : List Order) (store : List SalesTransaction)
    (locations : List Location)
    (hloc : ∀ o ∈ page, ∃ loc, locations.find?
      (fun l => l.squareLocationId == o.locationId) = some loc)
    (hmatch : ∀ o ∈ page, ∃ t,
      store.find? (fun t' => t'.squareTransactionId == o.id) = some t ∧
      t.paymentStatus = o.state.getD "UNKNOWN" ∧
      t.rawData.refunds = o.refunds) :
    processPage store page locations =
      (store, page.map (fun _ => (false, true))) := by
  induction page with
  | nil => rfl
  | cons o rest ih =>
    obtain ⟨loc, hlocO⟩ := hloc o (by simp)
    obtain ⟨t, hfind, hstat, href⟩ := hmatch o (by simp)
    have hskip := parse_skip store o locations t loc hfind hlocO hstat href
    have hrest := ih (fun o' ho' => hloc o' (by simp [ho']))
      (fun o' ho' => hmatch o' (by simp [ho']))
    simp only [processPage, hskip, hrest, List.map_cons]

/-- C1: replaying the same upstream order page (pairwise-distinct external
ids, locations known, ids not yet stored) any number of times leaves exactly
one transaction row per external id; the first replay flags every order
`(stored=True, was_dup=False)` — counted `created` — and every subsequent
identical replay performs no write and flags every order
`(stored=False, was_dup=True)` — counted `skipped_duplicate`. -/
theorem C1_idempotent_ingestion (page : List Order)
    (store : List SalesTransaction) (locations : List Location)
    (hnodup : (page.map Order.id).Nodup)
    (hloc : ∀ o ∈ page, ∃ loc, locations.find?
      (fun l => l.squareLocationId == o.locationId) = some loc)
    (hfresh : ∀ o ∈ page, ∀ t ∈ store, t.squareTransactionId ≠ o.id) :
    (processPage store page locations).2 =
      page.map (fun _ => (true, false)) ∧
    countCreated (processPage store page locations).2 = page.length ∧
    (∀ o ∈ page, ((processPage store page locations).1.filter
      (fun t => t.squareTransactionId == o.id)).length = 1) ∧
    processPage (processPage store page locations).1 page locations =
      ((processPage store page locations).1,
       page.map (fun _ => (false, true))) ∧
    countSkipped (page.map (fun _ => (false, true))) = page.length ∧
    ∀ k : Nat, (fun s => (processPage s page locations).1)^[k]
      (processPage store page locations).1 =
      (processPage store page locations).1 := by
  obtain ⟨hflags, hrows⟩ := processPage_fresh page store locations hnodup hloc hfresh
  have hreplay : processPage (processPage store page locations).1 page locations =
      ((processPage store page locations).1,
       page.map (fun _ => (false, true))) := by
    apply processPage_replay page _ locations hloc
    intro o ho
    obtain ⟨loc, _, hfind, _⟩ := hrows o ho
    exact ⟨mkTransaction o loc, hfind, rfl, rfl⟩
  refine ⟨hflags, ?_, ?_, hreplay, ?_, ?_⟩
  · rw [hflags]
    exact count_map_const page (true, false)
  · intro o ho
    obtain ⟨loc, _, _, h3⟩ := hrows o ho
    exact h3
  · exact count_map_const page (false, true)
  · intro k
    apply Function.iterate_fixed
    show (processPage (processPage store page locations).1 page locations).1 =
      (processPage store page locations).1
    rw [hreplay]

/-- Witness for C1 at a concrete input: one order ingested into an empty
store is created once; replaying the same page writes nothing and reports a
duplicate skip. -/
theorem C1_idempotent_ingestion_witness :
    (processPage []
      [⟨"O1", "SQ1", "2024-01-01", 10, some "COMPLETED", ⟨2000, some "EUR"⟩,
        ⟨2100, some "EUR"⟩, 0, 0, 0, [], [], [], []⟩]
      [⟨"L1", "SQ1", some "GBP"⟩]).2 = [(true, false)] ∧
    processPage
      (processPage []
        [⟨"O1", "SQ1", "2024-01-01", 10, some "COMPLETED", ⟨2000, some "EUR"⟩,
          ⟨2100, some "EUR"⟩, 0, 0, 0, [], [], [], []⟩]
        [⟨"L1", "SQ1", some "GBP"⟩]).1
      [⟨"O1", "SQ1", "2024-01-01", 10, some "COMPLETED", ⟨2000, some "EUR"⟩,
        ⟨2100, some "EUR"⟩, 0, 0, 0, [], [], [], []⟩]
      [⟨"L1", "SQ1", some "GBP"⟩] =
    ((processPage []
        [⟨"O1", "SQ1", "2024-01-01", 10, some "COMPLETED", ⟨2000, some "EUR"⟩,
          ⟨2100, some "EUR"⟩, 0, 0, 0, [], [], [], []⟩]
        [⟨"L1", "SQ1", some "GBP"⟩]).1, [(false, true)]) := by
  have h := C1_idempotent_ingestion
    [⟨"O1", "SQ1", "2024-01-01", 10, some "COMPLETED", ⟨2000, some "EUR"⟩,
      ⟨2100, some "EUR"⟩, 0, 0, 0, [], [], [], []⟩]
    [] [⟨"L1", "SQ1", some "GBP"⟩]
    (by decide)
    (by
      intro o ho
      rw [List.mem_singleton] at ho
      subst ho
      exact ⟨⟨"L1", "SQ1", some "GBP"⟩, by decide⟩)
    (by
      intro o ho t ht
      exact absurd ht (List.not_mem_nil t))
  exact ⟨by simpa using h.1, by simpa using h.2.2.2.1⟩

/-! ## C8: missing currency rate -/

theorem lookup_map_self {α β : Type} [DecidableEq α] (f : α → β)
    (l : List α) (c : α) (hc : c ∈ l) :
    (l.map (fun x => (x, f x))).lookup c = some (f c) := by
  induction l with
  | nil => cases hc
  | cons a as ih =>
    rw [List.map_cons]
    by_cases hca : c = a
    · subst hca
      simp [List.lookup]
    · have hb : (c == a) = false := by simpa using hca
      simp only [List.lookup, hb]
      exact ih (by
        rcases List.mem_cons.mp hc with h | h
        · exact absurd h hca
        · exact h)

/-- C8 counterexample: the organization has one configured rate (USD) and
the query observes EUR, which has no configured row.  The rate lookup does
fall back to 1.0, but `has_rates` is true (some rate exists), so the
response carries no "rates unavailable" advisory — against the claim that
such a query always carries the advisory flag. -/
theorem C8_missing_rate_counterexample :
    (get_rates_to_gbp [("USD", 5/4)] ["EUR"]).1.lookup "EUR" = some 1 ∧
    ([("USD", (5/4 : ℚ))].lookup "EUR" = none) ∧
    ratesWarning (get_rates_to_gbp [("USD", 5/4)] ["EUR"]).2 = none := by
  refine ⟨by decide, by decide, ?_⟩
  rfl

/-- C8 amended: a missing currency rate is never fatal — every observed
currency with no configured exchange-rate row resolves to the identity rate
1.0 — but the "rates unavailable" advisory is attached exactly when the
organization has no configured rate rows at all (`has_rates` false), not
whenever some particular observed currency lacks a row. -/
theorem C8_missing_rate_amended (rateRows : List (String × ℚ))
    (currencies : List String) (c : String)
    (hc : c ∈ currencies) (hnorow : rateRows.lookup c = none) :
    (get_rates_to_gbp rateRows currencies).1.lookup c = some 1 ∧
    (ratesWarning (get_rates_to_gbp rateRows currencies).2 = none ↔
      rateRows ≠ []) := by
  constructor
  · have h := lookup_map_self
      (fun curr => if curr = "GBP" then (1 : ℚ) else
        match rateRows.lookup curr with
        | some r => r
        | none => 1) currencies c hc
    rw [show (get_rates_to_gbp rateRows currencies).1 =
      currencies.map (fun curr => (curr,
        if curr = "GBP" then (1 : ℚ) else
        match rateRows.lookup curr with
        | some r => r
        | none => 1)) from rfl]
    rw [h]
    by_cases hgbp : c = "GBP"
    · simp [hgbp]
    · simp [hgbp, hnorow]
  · cases rateRows with
    | nil => simp [get_rates_to_gbp, ratesWarning]
    | cons r rs => simp [get_rates_to_gbp, ratesWarning]

/-- Witness for the amended C8 at a concrete input: USD configured, EUR
observed and unconfigured — EUR resolves to 1.0 and no advisory is set. -/
theorem C8_missing_rate_amended_witness :
    (get_rates_to_gbp [("USD", 5/4)] ["EUR"]).1.lookup "EUR" = some 1 ∧
    (ratesWarning (get_rates_to_gbp [("USD", 5/4)] ["EUR"]).2 = none ↔
      ([(("USD" : String), (5/4 : ℚ))] : List (String × ℚ)) ≠ []) :=
  C8_missing_rate_amended [("USD", 5/4)] ["EUR"] "EUR" (by decide) (by decide)

/-! ## C9: last-sync advancement -/

theorem updateFirst_exists_same {α β : Type} (p : α → Bool) (f : α → α)
    (g : α → β) (hg : ∀ x, g (f x) = g x) (l : List α) (t : α) (ht : t ∈ l) :
    ∃ t', t' ∈ updateFirst p f l ∧ g t' = g t := by
  induction l with
  | nil => cases ht
  | cons a as ih =>
    by_cases hpa : p a = true
    · simp only [updateFirst, if_pos hpa]
      rcases List.mem_cons.mp ht with h | h
      · exact ⟨f a, by simp, by rw [hg a, h]⟩
      · exact ⟨t, by simp [h], rfl⟩
    · simp only [updateFirst, if_neg hpa]
      rcases List.mem_cons.mp ht with h | h
      · exact ⟨a, by simp, by rw [h]⟩
      · obtain ⟨t', ht', hgt⟩ := ih h
        exact ⟨t', by simp [ht'], hgt⟩

/-- `parse_and_store_order` never drops a row: every stored external id is
still present (possibly with updated mutable fields) afterwards. -/
theorem parse_keeps_ids (store : List SalesTransaction) (o : Order)
    (locations : List Location) (t : SalesTransaction) (ht : t ∈ store) :
    ∃ t', t' ∈ (parse_and_store_order store o locations).1 ∧
      t'.squareTransactionId = t.squareTransactionId := by
  simp only [parse_and_store_order]
  cases hL : locations.find? (fun l => l.squareLocationId == o.locationId) with
  | none => exact ⟨t, ht, rfl⟩
  | some loc =>
    cases hE : store.find? (fun x => x.squareTransactionId == o.id) with
    | none => exact ⟨t, by simp [ht], rfl⟩
    | some t0 =>
      by_cases hcond : (t0.paymentStatus ≠ o.state.getD "UNKNOWN" ∨
          o.refunds.length ≠ t0.rawData.refunds.length ∨
          sortedStatuses t0.rawData.refunds ≠ sortedStatuses o.refunds)
      · simp only [if_pos hcond]
        exact updateFirst_exists_same
          (fun t => t.squareTransactionId == o.id) (applyOrderUpdate o)
          SalesTransaction.squareTransactionId (fun x => rfl) store t ht
      · simp only [if_neg hcond]
        exact ⟨t, ht, rfl⟩

theorem processPage_keeps_ids (page : List Order)
    (store : List SalesTransaction) (locations : List Location)
    (t : SalesTransaction) (ht : t ∈ store) :
    ∃ t', t' ∈ (processPage store page locations).1 ∧
      t'.squareTransactionId = t.squareTransactionId := by
  induction page generalizing store t with
  | nil => exact ⟨t, ht, rfl⟩
  | cons o rest ih =>
    obtain ⟨t1, ht1, hid1⟩ := parse_keeps_ids store o locations t ht
    obtain ⟨t2, ht2, hid2⟩ := ih (parse_and_store_order store o locations).1 t1 ht1
    exact ⟨t2, ht2, hid2.trans hid1⟩

/-- C9 counterexample: pass 1 aborts partway (its `aborted` flag is set),
yet the invocation still advances `last_sync_at` from its prior value 5 to
the invocation's end time 9 — against the claim that the timestamp is not
advanced when a pass fails. -/
theorem C9_last_sync_counterexample :
    (sync_square_payments [] ⟨some 5⟩ [] ⟨[], true⟩ ⟨[], false⟩ ⟨[], false⟩
        9).account.lastSyncAt = some 9 ∧
    (⟨[], true⟩ : PassInput).aborted = true ∧
    some (9 : Nat) ≠ some (5 : Nat) := by
  refine ⟨rfl, rfl, by decide⟩

/-- C9 amended: the three pass bodies each sit in an exception handler that
only logs, so `last_sync_at` is advanced to the invocation end time after
the passes regardless of any pass's failure (it is only left untouched when
the invocation fails outside the passes); the upserts already committed by
earlier passes are retained in the final store. -/
theorem C9_last_sync_amended (store : List SalesTransaction)
    (account : SquareAccount) (locations : List Location)
    (pass1 pass2 pass3 : PassInput) (endTime : Nat) :
    ((sync_square_payments store account locations pass1 pass2 pass3
        endTime).account.lastSyncAt = some endTime) ∧
    ∀ t ∈ (processPage store pass1.orders locations).1,
      ∃ t', t' ∈ (sync_square_payments store account locations pass1 pass2
          pass3 endTime).store ∧
        t'.squareTransactionId = t.squareTransactionId := by
  refine ⟨rfl, ?_⟩
  intro t ht
  obtain ⟨t2, ht2, hid2⟩ := processPage_keeps_ids pass2.orders
    (processPage store pass1.orders locations).1 locations t ht
  obtain ⟨t3, ht3, hid3⟩ := processPage_keeps_ids pass3.orders
    (processPage (processPage store pass1.orders locations).1 pass2.orders
      locations).1 locations t2 ht2
  exact ⟨t3, ht3, hid3.trans hid2⟩

/-- Witness for the amended C9 at a concrete input: a failed pass 1 still
advances the timestamp to 9, and the pre-existing stored row survives. -/
theorem C9_last_sync_amended_witness :
    ((sync_square_payments
        [mkTransaction
          ⟨"O1", "SQ1", "2024-01-01", 10, some "COMPLETED", ⟨2000, some "EUR"⟩,
            ⟨2100, some "EUR"⟩, 0, 0, 0, [], [], [], []⟩
          ⟨"L1", "SQ1", some "GBP"⟩]
        ⟨some 5⟩ [] ⟨[], true⟩ ⟨[], false⟩ ⟨[], false⟩ 9).account.lastSyncAt =
      some 9) ∧
    ∃ t', t' ∈ (sync_square_payments
        [mkTransaction
          ⟨"O1", "SQ1", "2024-01-01", 10, some "COMPLETED", ⟨2000, some "EUR"⟩,
            ⟨2100, some "EUR"⟩, 0, 0, 0, [], [], [], []⟩
          ⟨"L1", "SQ1", some "GBP"⟩]
        ⟨some 5⟩ [] ⟨[], true⟩ ⟨[], false⟩ ⟨[], false⟩ 9).store ∧
      t'.squareTransactionId = "O1" := by
  have h := C9_last_sync_amended
    [mkTransaction
      ⟨"O1", "SQ1", "2024-01-01", 10, some "COMPLETED", ⟨2000, some "EUR"⟩,
        ⟨2100, some "EUR"⟩, 0, 0, 0, [], [], [], []⟩
      ⟨"L1", "SQ1", some "GBP"⟩]
    ⟨some 5⟩ [] ⟨[], true⟩ ⟨[], false⟩ ⟨[], false⟩ 9
  refine ⟨h.1, ?_⟩
  obtain ⟨t', ht', hid⟩ := h.2
    (mkTransaction
      ⟨"O1", "SQ1", "2024-01-01", 10, some "COMPLETED", ⟨2000, some "EUR"⟩,
        ⟨2100, some "EUR"⟩, 0, 0, 0, [], [], [], []⟩
      ⟨"L1", "SQ1", some "GBP"⟩)
    (by simp [processPage])
  exact ⟨t', ht', hid⟩

/-! ## Generic lemmas for the rebuild proofs -/

theorem mem_distinctKeys {α : Type} [DecidableEq α] (l : List α) (k : α) :
    k ∈ distinctKeys l ↔ k ∈ l := by
  induction l with
  | nil => simp [distinctKeys]
  | cons a as ih =>
    by_cases hka : k = a
    · simp [distinctKeys, hka]
    · simp [distinctKeys, List.mem_filter, hka, ih]

theorem distinctKeys_nodup {α : Type} [DecidableEq α] (l : List α) :
    (distinctKeys l).Nodup := by
  induction l with
  | nil => simp [distinctKeys]
  | cons a as ih =>
    rw [distinctKeys, List.nodup_cons]
    constructor
    · intro hmem
      have := (List.mem_filter.mp hmem).2
      simp at this
    · exact ih.filter _

theorem map_updateFirst {α β : Type} (p : α → Bool) (f : α → α) (g : α → β)
    (hg : ∀ x, g (f x) = g x) (l : List α) :
    (updateFirst p f l).map g = l.map g := by
  induction l with
  | nil => rfl
  | cons a as ih =>
    by_cases hpa : p a = true
    · simp only [updateFirst, if_pos hpa, List.map_cons, hg a]
    · simp only [updateFirst, if_neg hpa, List.map_cons, ih]

theorem updateFirst_eq_map_of_at_most_one {α : Type} (p : α → Bool)
    (f : α → α) (l : List α)
    (h : l.Pairwise (fun a b => ¬(p a = true ∧ p b = true))) :
    updateFirst p f l = l.map (fun x => if p x then f x else x) := by
  induction l with
  | nil => rfl
  | cons a as ih =>
    rw [List.pairwise_cons] at h
    by_cases hpa : p a = true
    · simp only [updateFirst, if_pos hpa, List.map_cons]
      congr 1
      have : ∀ x ∈ as, (if p x then f x else x) = x := by
        intro x hx
        rw [if_neg]
        intro hpx
        exact h.1 x hx ⟨hpa, hpx⟩
      rw [List.map_congr_left this]
      simp
    · simp only [updateFirst, if_neg hpa, List.map_cons, ih h.2]

theorem foldl_add_sum (l : List ReturnEntry) (a : Int) :
    l.foldl (fun acc r => acc + (r.totalAmount - r.taxAmount)) a =
      a + (l.map (fun r => r.totalAmount - r.taxAmount)).sum := by
  induction l generalizing a with
  | nil => simp
  | cons r rs ih =>
    rw [List.foldl_cons, ih, List.map_cons, List.sum_cons]
    ring

theorem returnsDelta_eq_sum (t : SalesTransaction) :
    returnsDelta t =
      (t.rawData.returns.map (fun r => r.totalAmount - r.taxAmount)).sum := by
  rw [returnsDelta, foldl_add_sum]
  simp

/-- The `(location, date)` key of a summary row. -/
def summaryKey (b : DailySummary) : String × String := (b.locationId, b.date)

theorem summaryKey_refund_update (b : DailySummary) (n : Nat) (x : Int) :
    summaryKey { b with refund_count := n, total_refund_amount := x } =
      summaryKey b := rfl

/-- Closed form of the returns pass over buckets with pairwise-distinct
keys: each bucket's refund count grows by the number of scanned return rows
with its key, and its refund amount by the sum of their per-row ex-tax
deltas; no other field changes. -/
theorem applyReturnsPass_spec (bs : List DailySummary)
    (ts : List SalesTransaction)
    (hnodup : (bs.map summaryKey).Nodup) :
    applyReturnsPass bs ts = bs.map (fun b =>
      { b with
        refund_count := b.refund_count +
          (ts.filter (fun t => txnKey t == summaryKey b)).length
        total_refund_amount := b.total_refund_amount +
          ((ts.filter (fun t => txnKey t == summaryKey b)).map
            returnsDelta).sum }) := by
  induction ts generalizing bs with
  | nil =>
    have hpt : ∀ b ∈ bs, ({ b with
        refund_count := b.refund_count +
          (([] : List SalesTransaction).filter
            (fun t => txnKey t == summaryKey b)).length
        total_refund_amount := b.total_refund_amount +
          ((([] : List SalesTransaction).filter
            (fun t => txnKey t == summaryKey b)).map
            returnsDelta).sum } : DailySummary) = b := by
      intro b _
      simp
    rw [List.map_congr_left hpt]
    simp [applyReturnsPass]
  | cons t ts ih =>
    have hkey_of_pt : ∀ x : DailySummary,
        (x.locationId == t.locationId && x.date == t.txDate) = true →
        summaryKey x = (t.locationId, t.txDate) := by
      intro x hx
      rw [Bool.and_eq_true] at hx
      obtain ⟨h1, h2⟩ := hx
      rw [beq_iff_eq] at h1 h2
      rw [summaryKey, h1, h2]
    have hkeys : ((updateFirst
        (fun b => b.locationId == t.locationId && b.date == t.txDate)
        (fun b => { b with
          refund_count := b.refund_count + 1
          total_refund_amount := b.total_refund_amount + returnsDelta t })
        bs).map summaryKey) = bs.map summaryKey :=
      map_updateFirst
        (fun b => b.locationId == t.locationId && b.date == t.txDate)
        (fun b => { b with
          refund_count := b.refund_count + 1
          total_refund_amount := b.total_refund_amount + returnsDelta t })
        summaryKey (fun x => rfl) bs
    have hstep : applyReturnsPass bs (t :: ts) =
        applyReturnsPass (updateFirst
          (fun b => b.locationId == t.locationId && b.date == t.txDate)
          (fun b => { b with
            refund_count := b.refund_count + 1
            total_refund_amount := b.total_refund_amount + returnsDelta t })
          bs) ts := rfl
    rw [hstep, ih _ (by rw [hkeys]; exact hnodup)]
    have hpw : bs.Pairwise (fun a c => summaryKey a ≠ summaryKey c) :=
      List.pairwise_map.mp hnodup
    have hpair : bs.Pairwise (fun a c =>
        ¬((a.locationId == t.locationId && a.date == t.txDate) = true ∧
          (c.locationId == t.locationId && c.date == t.txDate) = true)) := by
      refine hpw.imp ?_
      intro a c hne ⟨ha, hc⟩
      exact hne ((hkey_of_pt a ha).trans (hkey_of_pt c hc).symm)
    rw [updateFirst_eq_map_of_at_most_one _ _ _ hpair, List.map_map]
    apply List.map_congr_left
    intro b hb
    by_cases hm : (b.locationId == t.locationId && b.date == t.txDate) = true
    · have hqt : (txnKey t == summaryKey b) = true := by
        rw [beq_iff_eq, hkey_of_pt b hm, txnKey]
      simp only [Function.comp_apply, if_pos hm]
      simp only [summaryKey_refund_update]
      rw [List.filter_cons, if_pos hqt, List.map_cons, List.sum_cons,
        List.length_cons]
      simp only [DailySummary.mk.injEq]
      simp only [and_true, true_and, eq_self_iff_true]
      constructor
      · omega
      · omega
    · have hqt : (txnKey t == summaryKey b) = false := by
        rw [beq_eq_false_iff_ne]
        intro hcontra
        apply hm
        rw [txnKey] at hcontra
        have h1 : t.locationId = b.locationId := congrArg Prod.fst hcontra
        have h2 : t.txDate = b.date := congrArg Prod.snd hcontra
        rw [← h1, ← h2]
        simp
      simp only [Function.comp_apply, if_neg hm]
      rw [List.filter_cons, if_neg (by rw [hqt]; exact Bool.false_ne_true)]

theorem charListLe_refl (l : List Char) : charListLe l l = true := by
  induction l with
  | nil => rfl
  | cons a as ih =>
    simp only [charListLe, if_neg (lt_irrefl a.val.toNat)]
    exact ih

theorem strLe_refl (a : String) : strLe a a = true := charListLe_refl a.data

theorem charListLe_total (l1 l2 : List Char) :
    charListLe l1 l2 = true ∨ charListLe l2 l1 = true := by
  induction l1 generalizing l2 with
  | nil => exact Or.inl rfl
  | cons a as ih =>
    cases l2 with
    | nil => exact Or.inr rfl
    | cons b bs =>
      rcases lt_trichotomy a.val.toNat b.val.toNat with h | h | h
      · left
        simp only [charListLe, if_pos h]
      · have hab : ¬ a.val.toNat < b.val.toNat := by rw [h]; exact lt_irrefl _
        have hba : ¬ b.val.toNat < a.val.toNat := by rw [h]; exact lt_irrefl _
        rcases ih bs with hc | hc
        · left
          simp only [charListLe, if_neg hab, if_neg hba]
          exact hc
        · right
          simp only [charListLe, if_neg hab, if_neg hba]
          exact hc
      · right
        simp only [charListLe, if_pos h]

theorem strLe_total (a b : String) : strLe a b = true ∨ strLe b a = true :=
  charListLe_total a.data b.data

theorem charListLe_trans (l1 l2 l3 : List Char)
    (h12 : charListLe l1 l2 = true) (h23 : charListLe l2 l3 = true) :
    charListLe l1 l3 = true := by
  induction l1 generalizing l2 l3 with
  | nil => rfl
  | cons a as ih =>
    cases l2 with
    | nil => simp [charListLe] at h12
    | cons b bs =>
      cases l3 with
      | nil => simp [charListLe] at h23
      | cons c cs =>
        by_cases hab : a.val.toNat < b.val.toNat
        · by_cases hbc : b.val.toNat < c.val.toNat
          · simp only [charListLe, if_pos (lt_trans hab hbc)]
          · simp only [charListLe, if_neg hbc] at h23
            by_cases hcb : c.val.toNat < b.val.toNat
            · rw [if_pos hcb] at h23
              exact absurd h23 (by simp)
            · have hbceq : b.val.toNat = c.val.toNat := le_antisymm (le_of_not_lt hcb) (le_of_not_lt hbc)
              simp only [charListLe, if_pos (hbceq ▸ hab)]
        · simp only [charListLe, if_neg hab] at h12
          by_cases hba : b.val.toNat < a.val.toNat
          · rw [if_pos hba] at h12
            exact absurd h12 (by simp)
          · rw [if_neg hba] at h12
            have habeq : a.val.toNat = b.val.toNat := le_antisymm (le_of_not_lt hba) (le_of_not_lt hab)
            by_cases hbc : b.val.toNat < c.val.toNat
            · simp only [charListLe, if_pos (habeq ▸ hbc)]
            · simp only [charListLe, if_neg hbc] at h23
              by_cases hcb : c.val.toNat < b.val.toNat
              · rw [if_pos hcb] at h23
                exact absurd h23 (by simp)
              · rw [if_neg hcb] at h23
                have hac : ¬ a.val.toNat < c.val.toNat := by
                  rw [habeq]
                  exact hbc
                have hca : ¬ c.val.toNat < a.val.toNat := by
                  rw [habeq]
                  exact hcb
                simp only [charListLe, if_neg hac, if_neg hca]
                exact ih bs cs h12 h23

theorem strLe_trans (a b c : String) (h1 : strLe a b = true)
    (h2 : strLe b c = true) : strLe a c = true :=
  charListLe_trans a.data b.data c.data h1 h2

theorem strLe_of_not_strLe (a b : String) (h : ¬ strLe a b = true) :
    strLe b a = true := by
  rcases strLe_total a b with hc | hc
  · exact absurd hc h
  · exact hc

theorem sqlMinString_go (l : List String) (m : String) :
    ∃ m', l.foldl (fun acc c =>
        match acc with
        | none => some c
        | some m => some (if strLe m c then m else c)) (some m) = some m' ∧
      (m' = m ∨ m' ∈ l) ∧ strLe m' m = true ∧
      ∀ c ∈ l, strLe m' c = true := by
  induction l generalizing m with
  | nil => exact ⟨m, rfl, Or.inl rfl, strLe_refl m, by simp⟩
  | cons c cs ih =>
    obtain ⟨m', heq, hmem, hle, hall⟩ := ih (if strLe m c then m else c)
    have hifm : strLe (if strLe m c then m else c) m = true := by
      by_cases hmc : strLe m c = true
      · rw [if_pos hmc]
        exact strLe_refl m
      · rw [if_neg hmc]
        exact strLe_of_not_strLe m c hmc
    have hifc : strLe (if strLe m c then m else c) c = true := by
      by_cases hmc : strLe m c = true
      · rw [if_pos hmc]
        exact hmc
      · rw [if_neg hmc]
        exact strLe_refl c
    refine ⟨m', ?_, ?_, strLe_trans _ _ _ hle hifm, ?_⟩
    · rw [List.foldl_cons]
      exact heq
    · rcases hmem with h | h
      · by_cases hmc : strLe m c = true
        · rw [if_pos hmc] at h
          exact Or.inl h
        · rw [if_neg hmc] at h
          exact Or.inr (by rw [h]; simp)
      · exact Or.inr (List.mem_cons_of_mem c h)
    · intro x hx
      rcases List.mem_cons.mp hx with h | h
      · rw [h]
        exact strLe_trans _ _ _ hle hifc
      · exact hall x h

theorem sqlMinString_spec (l : List String) (hl : l ≠ []) :
    ∃ m, sqlMinString l = some m ∧ m ∈ l ∧ ∀ c ∈ l, strLe m c = true := by
  cases l with
  | nil => exact absurd rfl hl
  | cons c cs =>
    obtain ⟨m', heq, hmem, hle, hall⟩ := sqlMinString_go cs c
    refine ⟨m', heq, ?_, ?_⟩
    · rcases hmem with h | h
      · rw [h]; simp
      · exact List.mem_cons_of_mem c h
    · intro x hx
      rcases List.mem_cons.mp hx with h | h
      · rw [h]; exact hle
      · exact hall x h

/-- The shape of the rebuilt bucket for each grouping key: location/date
from the key, raw cross-currency sales sum and SQL-MIN currency from the
key's COMPLETED group, and refund fields accumulated from every
return-bearing row of the target locations with that key (no status
filter). -/
theorem rebuild_bucket_form (txns : List SalesTransaction)
    (locationIds : List String) (k : String × String)
    (hk : k ∈ distinctKeys ((completedTxns txns locationIds).map txnKey)) :
    ∃ b, b ∈ rebuild_daily_summaries_for_locations txns locationIds ∧
      b.locationId = k.1 ∧ b.date = k.2 ∧
      b.total_sales = (((completedTxns txns locationIds).filter
        (fun t => t.locationId == k.1 && t.txDate == k.2)).map
        (·.amountMoneyAmount)).sum ∧
      b.total_gross = (((completedTxns txns locationIds).filter
        (fun t => t.locationId == k.1 && t.txDate == k.2)).map
        (·.totalMoneyAmount)).sum ∧
      b.currency = (sqlMinString (((completedTxns txns locationIds).filter
        (fun t => t.locationId == k.1 && t.txDate == k.2)).filterMap
        (·.amountMoneyCurrency))).getD "GBP" ∧
      b.refund_count = ((txns.filter (fun t =>
        locationIds.contains t.locationId && !t.rawData.returns.isEmpty)).filter
        (fun t => txnKey t == k)).length ∧
      b.total_refund_amount = (((txns.filter (fun t =>
        locationIds.contains t.locationId && !t.rawData.returns.isEmpty)).filter
        (fun t => txnKey t == k)).map returnsDelta).sum := by
  have hempty : locationIds.isEmpty = false := by
    cases locationIds with
    | nil =>
      exfalso
      simp [completedTxns, distinctKeys] at hk
    | cons _ _ => rfl
  have hkeysid : ((applyLineItemsPass
      ((distinctKeys ((completedTxns txns locationIds).map txnKey)).map
        (buildBucket (completedTxns txns locationIds)))
      (completedTxns txns locationIds)).map summaryKey) =
      distinctKeys ((completedTxns txns locationIds).map txnKey) := by
    rw [applyLineItemsPass, List.map_map, List.map_map]
    exact (List.map_congr_left (fun x _ => rfl)).trans (List.map_id _)
  have hnodup : ((applyLineItemsPass
      ((distinctKeys ((completedTxns txns locationIds).map txnKey)).map
        (buildBucket (completedTxns txns locationIds)))
      (completedTxns txns locationIds)).map summaryKey).Nodup := by
    rw [hkeysid]
    exact distinctKeys_nodup _
  have hreb : rebuild_daily_summaries_for_locations txns locationIds =
      applyReturnsPass
        (applyLineItemsPass
          ((distinctKeys ((completedTxns txns locationIds).map txnKey)).map
            (buildBucket (completedTxns txns locationIds)))
          (completedTxns txns locationIds))
        (txns.filter (fun t =>
          locationIds.contains t.locationId && !t.rawData.returns.isEmpty)) := by
    rw [rebuild_daily_summaries_for_locations, hempty]
    rfl
  rw [hreb, applyReturnsPass_spec _ _ hnodup]
  -- the bucket produced for key k
  have hmem0 : buildBucket (completedTxns txns locationIds) k ∈
      (distinctKeys ((completedTxns txns locationIds).map txnKey)).map
        (buildBucket (completedTxns txns locationIds)) :=
    List.mem_map_of_mem _ hk
  have hmem1 : (fun b : DailySummary =>
      let g := (completedTxns txns locationIds).filter (fun t =>
        t.locationId == b.locationId && t.txDate == b.date)
      { b with
        total_items := b.total_items + (g.map lineItemsQty).sum
        by_hour := g.foldl
          (fun bh t => bumpHourItems bh t.txHour (lineItemsQty t)) b.by_hour
        top_products := topProducts g })
      (buildBucket (completedTxns txns locationIds) k) ∈
      applyLineItemsPass
        ((distinctKeys ((completedTxns txns locationIds).map txnKey)).map
          (buildBucket (completedTxns txns locationIds)))
        (completedTxns txns locationIds) := by
    rw [applyLineItemsPass]
    exact List.mem_map_of_mem _ hmem0
  refine ⟨_, List.mem_map_of_mem _ hmem1, rfl, rfl, rfl, rfl, rfl, ?_, ?_⟩
  · exact Nat.zero_add _
  · exact Int.zero_add _

theorem filter_filter_comb {α : Type} (p q : α → Bool) (l : List α) :
    (l.filter p).filter q = l.filter (fun a => p a && q a) := by
  induction l with
  | nil => rfl
  | cons a as ih =>
    by_cases hpa : p a = true
    · by_cases hqa : q a = true
      · simp [List.filter_cons, hpa, hqa, ih]
      · simp [List.filter_cons, hpa, hqa, ih]
    · simp [List.filter_cons, hpa, ih]

/-! ## C5: refund ex-tax accumulation -/

/-- C5: in the rebuilt summary bucket of any grouping key, every return
entry of every scanned return-bearing row with that key contributes exactly
`total − tax` (tax-exclusive) to `total_refund_amount`, and each such row
contributes exactly one to `refund_count`. -/
theorem C5_refund_ex_tax (txns : List SalesTransaction)
    (locationIds : List String) (k : String × String)
    (hk : k ∈ distinctKeys ((completedTxns txns locationIds).map txnKey)) :
    ∃ b, b ∈ rebuild_daily_summaries_for_locations txns locationIds ∧
      b.locationId = k.1 ∧ b.date = k.2 ∧
      b.total_refund_amount = ((txns.filter (fun t =>
          (locationIds.contains t.locationId && !t.rawData.returns.isEmpty) &&
          txnKey t == k)).map (fun t => (t.rawData.returns.map
          (fun r => r.totalAmount - r.taxAmount)).sum)).sum ∧
      b.refund_count = (txns.filter (fun t =>
        (locationIds.contains t.locationId && !t.rawData.returns.isEmpty) &&
        txnKey t == k)).length := by
  obtain ⟨b, hmem, h1, h2, _, _, _, hrc, htra⟩ :=
    rebuild_bucket_form txns locationIds k hk
  refine ⟨b, hmem, h1, h2, ?_, ?_⟩
  · rw [htra, filter_filter_comb,
      List.map_congr_left (fun t _ => returnsDelta_eq_sum t)]
  · rw [hrc, filter_filter_comb]

/-- Witness for C5 at a concrete input: a COMPLETED transaction with one
return entry of total 1000 and tax 150 contributes 850, not 1000. -/
theorem C5_refund_ex_tax_witness :
    ∃ b, b ∈ rebuild_daily_summaries_for_locations
        [{ locationId := "L1", squareTransactionId := "O1",
           txDate := "2024-01-01", txHour := 10,
           amountMoneyAmount := 2000, amountMoneyCurrency := some "EUR",
           totalMoneyAmount := 2100, totalMoneyCurrency := some "EUR",
           totalDiscountAmount := 0, totalTaxAmount := 0, totalTipAmount := 0,
           tenderType := some "CARD", paymentStatus := "COMPLETED",
           cardBrand := none, lastFour := none, lineItems := [],
           rawData := ⟨"O1", "SQ1", "2024-01-01", 10, some "COMPLETED",
             ⟨2000, some "EUR"⟩, ⟨2100, some "EUR"⟩, 0, 0, 0, [], [], [],
             [⟨1000, 150⟩]⟩ }] ["L1"] ∧
      b.total_refund_amount = 850 ∧ b.refund_count = 1 := by
  obtain ⟨b, hmem, _, _, htra, hrc⟩ := C5_refund_ex_tax
    [{ locationId := "L1", squareTransactionId := "O1",
       txDate := "2024-01-01", txHour := 10,
       amountMoneyAmount := 2000, amountMoneyCurrency := some "EUR",
       totalMoneyAmount := 2100, totalMoneyCurrency := some "EUR",
       totalDiscountAmount := 0, totalTaxAmount := 0, totalTipAmount := 0,
       tenderType := some "CARD", paymentStatus := "COMPLETED",
       cardBrand := none, lastFour := none, lineItems := [],
       rawData := ⟨"O1", "SQ1", "2024-01-01", 10, some "COMPLETED",
         ⟨2000, some "EUR"⟩, ⟨2100, some "EUR"⟩, 0, 0, 0, [], [], [],
         [⟨1000, 150⟩]⟩ }] ["L1"] ("L1", "2024-01-01") (by decide)
  refine ⟨b, hmem, ?_, ?_⟩
  · rw [htra]
    decide
  · rw [hrc]
    decide

/-! ## C10: summary currency and unconverted cross-currency sum -/

/-- C10 (implicit): each rebuilt bucket stores, as `currency`, the
lexicographic SQL-MIN of its COMPLETED group's non-null currency codes
("GBP" when none exists), and, as `total_sales` and `total_gross`, the raw
sums of the group's net and gross minor-unit amounts across all currencies
with no conversion applied. -/
theorem C10_summary_currency_min (txns : List SalesTransaction)
    (locationIds : List String) (k : String × String)
    (hk : k ∈ distinctKeys ((completedTxns txns locationIds).map txnKey)) :
    ∃ b, b ∈ rebuild_daily_summaries_for_locations txns locationIds ∧
      b.locationId = k.1 ∧ b.date = k.2 ∧
      b.total_sales = (((completedTxns txns locationIds).filter
        (fun t => t.locationId == k.1 && t.txDate == k.2)).map
        (·.amountMoneyAmount)).sum ∧
      b.total_gross = (((completedTxns txns locationIds).filter
        (fun t => t.locationId == k.1 && t.txDate == k.2)).map
        (·.totalMoneyAmount)).sum ∧
      b.currency = (sqlMinString (((completedTxns txns locationIds).filter
        (fun t => t.locationId == k.1 && t.txDate == k.2)).filterMap
        (·.amountMoneyCurrency))).getD "GBP" ∧
      ((((completedTxns txns locationIds).filter
          (fun t => t.locationId == k.1 && t.txDate == k.2)).filterMap
          (·.amountMoneyCurrency) = [] ∧ b.currency = "GBP") ∨
       (b.currency ∈ ((completedTxns txns locationIds).filter
          (fun t => t.locationId == k.1 && t.txDate == k.2)).filterMap
          (·.amountMoneyCurrency) ∧
        ∀ c ∈ ((completedTxns txns locationIds).filter
          (fun t => t.locationId == k.1 && t.txDate == k.2)).filterMap
          (·.amountMoneyCurrency), strLe b.currency c = true)) := by
  obtain ⟨b, hmem, h1, h2, hsum, hgross, hcur, _, _⟩ :=
    rebuild_bucket_form txns locationIds k hk
  refine ⟨b, hmem, h1, h2, hsum, hgross, hcur, ?_⟩
  by_cases hnil : ((completedTxns txns locationIds).filter
      (fun t => t.locationId == k.1 && t.txDate == k.2)).filterMap
      (·.amountMoneyCurrency) = []
  · left
    refine ⟨hnil, ?_⟩
    rw [hcur, hnil]
    rfl
  · right
    obtain ⟨m, hmeq, hmmem, hall⟩ := sqlMinString_spec _ hnil
    rw [hcur, hmeq]
    exact ⟨hmmem, hall⟩

/-- Witness for C10 at a concrete input: a bucket with one EUR 1000 and one
USD 500 COMPLETED transaction stores `total_sales = 1500` and
`total_gross = 1500` (raw, unconverted) labeled `currency = "EUR"` (the
lexicographic minimum). -/
theorem C10_summary_currency_min_witness :
    ∃ b, b ∈ rebuild_daily_summaries_for_locations
        [{ locationId := "L1", squareTransactionId := "O1",
           txDate := "2024-01-01", txHour := 10,
           amountMoneyAmount := 1000, amountMoneyCurrency := some "EUR",
           totalMoneyAmount := 1000, totalMoneyCurrency := some "EUR",
           totalDiscountAmount := 0, totalTaxAmount := 0, totalTipAmount := 0,
           tenderType := some "CARD", paymentStatus := "COMPLETED",
           cardBrand := none, lastFour := none, lineItems := [],
           rawData := ⟨"O1", "SQ1", "2024-01-01", 10, some "COMPLETED",
             ⟨1000, some "EUR"⟩, ⟨1000, some "EUR"⟩, 0, 0, 0, [], [], [], []⟩ },
         { locationId := "L1", squareTransactionId := "O2",
           txDate := "2024-01-01", txHour := 11,
           amountMoneyAmount := 500, amountMoneyCurrency := some "USD",
           totalMoneyAmount := 500, totalMoneyCurrency := some "USD",
           totalDiscountAmount := 0, totalTaxAmount := 0, totalTipAmount := 0,
           tenderType := some "CASH", paymentStatus := "COMPLETED",
           cardBrand := none, lastFour := none, lineItems := [],
           rawData := ⟨"O2", "SQ1", "2024-01-01", 11, some "COMPLETED",
             ⟨500, some "USD"⟩, ⟨500, some "USD"⟩, 0, 0, 0, [], [], [], []⟩ }]
        ["L1"] ∧
      b.total_sales = 1500 ∧ b.total_gross = 1500 ∧ b.currency = "EUR" := by
  obtain ⟨b, hmem, _, _, hsum, hgross, hcureq, _⟩ := C10_summary_currency_min
    [{ locationId := "L1", squareTransactionId := "O1",
       txDate := "2024-01-01", txHour := 10,
       amountMoneyAmount := 1000, amountMoneyCurrency := some "EUR",
       totalMoneyAmount := 1000, totalMoneyCurrency := some "EUR",
       totalDiscountAmount := 0, totalTaxAmount := 0, totalTipAmount := 0,
       tenderType := some "CARD", paymentStatus := "COMPLETED",
       cardBrand := none, lastFour := none, lineItems := [],
       rawData := ⟨"O1", "SQ1", "2024-01-01", 10, some "COMPLETED",
         ⟨1000, some "EUR"⟩, ⟨1000, some "EUR"⟩, 0, 0, 0, [], [], [], []⟩ },
     { locationId := "L1", squareTransactionId := "O2",
       txDate := "2024-01-01", txHour := 11,
       amountMoneyAmount := 500, amountMoneyCurrency := some "USD",
       totalMoneyAmount := 500, totalMoneyCurrency := some "USD",
       totalDiscountAmount := 0, totalTaxAmount := 0, totalTipAmount := 0,
       tenderType := some "CASH", paymentStatus := "COMPLETED",
       cardBrand := none, lastFour := none, lineItems := [],
       rawData := ⟨"O2", "SQ1", "2024-01-01", 11, some "COMPLETED",
         ⟨500, some "USD"⟩, ⟨500, some "USD"⟩, 0, 0, 0, [], [], [], []⟩ }]
    ["L1"] ("L1", "2024-01-01") (by decide)
  refine ⟨b, hmem, by rw [hsum]; decide, by rw [hgross]; decide, ?_⟩
  rw [hcureq]
  decide

/-! ## C4: the COMPLETED-only contract of the rebuild -/

/-- A summary row with its refund fields blanked, to compare everything
except the refund accumulation. -/
def eraseRefund (b : DailySummary) : DailySummary :=
  { b with refund_count := 0, total_refund_amount := 0 }

/-- `rebuild_daily_summaries_for_locations` unfolded at a non-empty location
set: buckets built from the COMPLETED subset, then the returns pass over
every return-bearing row of the target locations (no status filter). -/
theorem rebuild_eq (txns : List SalesTransaction) (locationIds : List String)
    (h : locationIds.isEmpty = false) :
    rebuild_daily_summaries_for_locations txns locationIds =
      applyReturnsPass
        (applyLineItemsPass
          ((distinctKeys ((completedTxns txns locationIds).map txnKey)).map
            (buildBucket (completedTxns txns locationIds)))
          (completedTxns txns locationIds))
        (txns.filter (fun t =>
          locationIds.contains t.locationId && !t.rawData.returns.isEmpty)) := by
  rw [rebuild_daily_summaries_for_locations, h]
  rfl

/-- The returns pass touches only refund fields: blanking them recovers the
input buckets. -/
theorem map_eraseRefund_applyReturnsPass (bs : List DailySummary)
    (ts : List SalesTransaction) :
    (applyReturnsPass bs ts).map eraseRefund = bs.map eraseRefund := by
  induction ts generalizing bs with
  | nil => rfl
  | cons t ts ih =>
    have hstep : applyReturnsPass bs (t :: ts) =
        applyReturnsPass (updateFirst
          (fun b => b.locationId == t.locationId && b.date == t.txDate)
          (fun b => { b with
            refund_count := b.refund_count + 1
            total_refund_amount := b.total_refund_amount + returnsDelta t })
          bs) ts := rfl
    rw [hstep, ih]
    exact map_updateFirst
      (fun b => b.locationId == t.locationId && b.date == t.txDate)
      (fun b => { b with
        refund_count := b.refund_count + 1
        total_refund_amount := b.total_refund_amount + returnsDelta t })
      eraseRefund (fun x => rfl) bs

/-- C4 counterexample: an OPEN (non-COMPLETED) transaction carrying one
return entry of total 1000 / tax 150 does contribute to the rebuilt
summary's refund fields (count 1, amount 850) of the bucket its COMPLETED
sibling creates — against the claim that a non-COMPLETED transaction
contributes to no field, refund fields included. -/
theorem C4_completed_only_counterexample :
    ((rebuild_daily_summaries_for_locations
      [{ locationId := "L1", squareTransactionId := "O1",
         txDate := "2024-01-01", txHour := 10,
         amountMoneyAmount := 2000, amountMoneyCurrency := some "EUR",
         totalMoneyAmount := 2100, totalMoneyCurrency := some "EUR",
         totalDiscountAmount := 0, totalTaxAmount := 0, totalTipAmount := 0,
         tenderType := some "CARD", paymentStatus := "COMPLETED",
         cardBrand := none, lastFour := none, lineItems := [],
         rawData := ⟨"O1", "SQ1", "2024-01-01", 10, some "COMPLETED",
           ⟨2000, some "EUR"⟩, ⟨2100, some "EUR"⟩, 0, 0, 0, [], [], [], []⟩ },
       { locationId := "L1", squareTransactionId := "O2",
         txDate := "2024-01-01", txHour := 11,
         amountMoneyAmount := 500, amountMoneyCurrency := some "EUR",
         totalMoneyAmount := 500, totalMoneyCurrency := some "EUR",
         totalDiscountAmount := 0, totalTaxAmount := 0, totalTipAmount := 0,
         tenderType := some "CARD", paymentStatus := "OPEN",
         cardBrand := none, lastFour := none, lineItems := [],
         rawData := ⟨"O2", "SQ1", "2024-01-01", 11, some "OPEN",
           ⟨500, some "EUR"⟩, ⟨500, some "EUR"⟩, 0, 0, 0, [], [],
           [], [⟨1000, 150⟩]⟩ }] ["L1"]).map
      (fun b => (b.refund_count, b.total_refund_amount))) = [(1, 850)] ∧
    ((rebuild_daily_summaries_for_locations
      [{ locationId := "L1", squareTransactionId := "O1",
         txDate := "2024-01-01", txHour := 10,
         amountMoneyAmount := 2000, amountMoneyCurrency := some "EUR",
         totalMoneyAmount := 2100, totalMoneyCurrency := some "EUR",
         totalDiscountAmount := 0, totalTaxAmount := 0, totalTipAmount := 0,
         tenderType := some "CARD", paymentStatus := "COMPLETED",
         cardBrand := none, lastFour := none, lineItems := [],
         rawData := ⟨"O1", "SQ1", "2024-01-01", 10, some "COMPLETED",
           ⟨2000, some "EUR"⟩, ⟨2100, some "EUR"⟩, 0, 0, 0, [], [], [], []⟩ }]
      ["L1"]).map
      (fun b => (b.refund_count, b.total_refund_amount))) = [(0, 0)] ∧
    ("OPEN" : String) ≠ "COMPLETED" := by
  refine ⟨?_, ?_, by decide⟩ <;> decide

/-- C4 amended: the core, tender, hourly and line-items stages aggregate
over the COMPLETED subset only — adding a non-COMPLETED transaction leaves
every rebuilt summary unchanged outside the refund fields, and fully
unchanged when it carries no return entries.  The returns pass, however,
scans every return-bearing row of the target locations regardless of
payment status. -/
theorem C4_completed_only_amended (txns : List SalesTransaction)
    (locationIds : List String) (t : SalesTransaction)
    (ht : t.paymentStatus ≠ "COMPLETED") :
    (rebuild_daily_summaries_for_locations (t :: txns) locationIds).map
        eraseRefund =
      (rebuild_daily_summaries_for_locations txns locationIds).map
        eraseRefund ∧
    (t.rawData.returns = [] →
      rebuild_daily_summaries_for_locations (t :: txns) locationIds =
        rebuild_daily_summaries_for_locations txns locationIds) := by
  have hcomp : completedTxns (t :: txns) locationIds =
      completedTxns txns locationIds := by
    rw [completedTxns, completedTxns, List.filter_cons, if_neg]
    intro hcontra
    rw [Bool.and_eq_true] at hcontra
    exact ht (beq_iff_eq.mp hcontra.2)
  cases hLE : locationIds.isEmpty with
  | true =>
    have h1 : rebuild_daily_summaries_for_locations (t :: txns) locationIds = [] := by
      rw [rebuild_daily_summaries_for_locations, hLE]
      rfl
    have h2 : rebuild_daily_summaries_for_locations txns locationIds = [] := by
      rw [rebuild_daily_summaries_for_locations, hLE]
      rfl
    rw [h1, h2]
    exact ⟨rfl, fun _ => rfl⟩
  | false =>
    rw [rebuild_eq (t :: txns) locationIds hLE, rebuild_eq txns locationIds hLE,
      hcomp]
    constructor
    · rw [map_eraseRefund_applyReturnsPass, map_eraseRefund_applyReturnsPass]
    · intro hret
      have hfil : (t :: txns).filter (fun t =>
          locationIds.contains t.locationId && !t.rawData.returns.isEmpty) =
          txns.filter (fun t =>
            locationIds.contains t.locationId && !t.rawData.returns.isEmpty) := by
        rw [List.filter_cons, if_neg]
        intro hcontra
        rw [Bool.and_eq_true] at hcontra
        have h2 := hcontra.2
        rw [hret] at h2
        simp at h2
      rw [hfil]

/-- Witness for the amended C4 at a concrete input: adding an OPEN
transaction with a return entry changes the rebuilt summaries only in their
refund fields. -/
theorem C4_completed_only_amended_witness :
    (rebuild_daily_summaries_for_locations
      [{ locationId := "L1", squareTransactionId := "O2",
         txDate := "2024-01-01", txHour := 11,
         amountMoneyAmount := 500, amountMoneyCurrency := some "EUR",
         totalMoneyAmount := 500, totalMoneyCurrency := some "EUR",
         totalDiscountAmount := 0, totalTaxAmount := 0, totalTipAmount := 0,
         tenderType := some "CARD", paymentStatus := "OPEN",
         cardBrand := none, lastFour := none, lineItems := [],
         rawData := ⟨"O2", "SQ1", "2024-01-01", 11, some "OPEN",
           ⟨500, some "EUR"⟩, ⟨500, some "EUR"⟩, 0, 0, 0, [], [],
           [], [⟨1000, 150⟩]⟩ },
       { locationId := "L1", squareTransactionId := "O1",
         txDate := "2024-01-01", txHour := 10,
         amountMoneyAmount := 2000, amountMoneyCurrency := some "EUR",
         totalMoneyAmount := 2100, totalMoneyCurrency := some "EUR",
         totalDiscountAmount := 0, totalTaxAmount := 0, totalTipAmount := 0,
         tenderType := some "CARD", paymentStatus := "COMPLETED",
         cardBrand := none, lastFour := none, lineItems := [],
         rawData := ⟨"O1", "SQ1", "2024-01-01", 10, some "COMPLETED",
           ⟨2000, some "EUR"⟩, ⟨2100, some "EUR"⟩, 0, 0, 0, [], [], [], []⟩ }]
      ["L1"]).map eraseRefund =
    (rebuild_daily_summaries_for_locations
      [{ locationId := "L1", squareTransactionId := "O1",
         txDate := "2024-01-01", txHour := 10,
         amountMoneyAmount := 2000, amountMoneyCurrency := some "EUR",
         totalMoneyAmount := 2100, totalMoneyCurrency := some "EUR",
         totalDiscountAmount := 0, totalTaxAmount := 0, totalTipAmount := 0,
         tenderType := some "CARD", paymentStatus := "COMPLETED",
         cardBrand := none, lastFour := none, lineItems := [],
         rawData := ⟨"O1", "SQ1", "2024-01-01", 10, some "COMPLETED",
           ⟨2000, some "EUR"⟩, ⟨2100, some "EUR"⟩, 0, 0, 0, [], [], [], []⟩ }]
      ["L1"]).map eraseRefund :=
  (C4_completed_only_amended
    [{ locationId := "L1", squareTransactionId := "O1",
       txDate := "2024-01-01", txHour := 10,
       amountMoneyAmount := 2000, amountMoneyCurrency := some "EUR",
       totalMoneyAmount := 2100, totalMoneyCurrency := some "EUR",
       totalDiscountAmount := 0, totalTaxAmount := 0, totalTipAmount := 0,
       tenderType := some "CARD", paymentStatus := "COMPLETED",
       cardBrand := none, lastFour := none, lineItems := [],
       rawData := ⟨"O1", "SQ1", "2024-01-01", 10, some "COMPLETED",
         ⟨2000, some "EUR"⟩, ⟨2100, some "EUR"⟩, 0, 0, 0, [], [], [], []⟩ }]
    ["L1"]
    { locationId := "L1", squareTransactionId := "O2",
      txDate := "2024-01-01", txHour := 11,
      amountMoneyAmount := 500, amountMoneyCurrency := some "EUR",
      totalMoneyAmount := 500, totalMoneyCurrency := some "EUR",
      totalDiscountAmount := 0, totalTaxAmount := 0, totalTipAmount := 0,
      tenderType := some "CARD", paymentStatus := "OPEN",
      cardBrand := none, lastFour := none, lineItems := [],
      rawData := ⟨"O2", "SQ1", "2024-01-01", 11, some "OPEN",
        ⟨500, some "EUR"⟩, ⟨500, some "EUR"⟩, 0, 0, 0, [], [],
        [], [⟨1000, 150⟩]⟩ }
    (by decide)).1

/-! ## C3: group-by-currency-then-convert in location mode -/

theorem rateOf_get_rates (rateRows : List (String × ℚ))
    (currencies : List String) (c : String) (hc : c ∈ currencies) :
    rateOf (get_rates_to_gbp rateRows currencies).1 c = effRate rateRows c := by
  rw [rateOf]
  have h := lookup_map_self
    (fun curr => if curr = "GBP" then (1 : ℚ) else
      match rateRows.lookup curr with
      | some r => r
      | none => 1) currencies c hc
  rw [show (get_rates_to_gbp rateRows currencies).1 =
    currencies.map (fun curr => (curr,
      if curr = "GBP" then (1 : ℚ) else
      match rateRows.lookup curr with
      | some r => r
      | none => 1)) from rfl]
  rw [h, effRate]
  by_cases hg : c = "GBP"
  · simp [hg]
  · cases hlk : rateRows.lookup c <;> simp [hg, hlk]

theorem foldl_pair_sum {α : Type} (l : List α) (g : α → Int) (h : α → Nat)
    (a : Int) (b : Nat) :
    l.foldl (fun acc r => (acc.1 + g r, acc.2 + h r)) (a, b) =
      (a + (l.map g).sum, b + (l.map h).sum) := by
  induction l generalizing a b with
  | nil => simp
  | cons x xs ih =>
    rw [List.foldl_cons, ih, List.map_cons, List.sum_cons, List.map_cons,
      List.sum_cons]
    simp [add_assoc]

/-- Both components of the location-mode aggregation as closed sums over
the per-currency grouped rows: each group's raw subtotal is converted with
its own effective rate and rounded per group, then summed. -/
theorem location_mode_total_eq (filtered : List SalesTransaction)
    (rateRows : List (String × ℚ)) :
    (get_sales_aggregation_location_mode filtered rateRows).1 =
      ((locationModeRows filtered).map (fun r =>
        pyRound ((r.2.1 : ℚ) * effRate rateRows (r.1.getD "GBP")))).sum ∧
    (get_sales_aggregation_location_mode filtered rateRows).2 =
      ((locationModeRows filtered).map (fun r => r.2.2)).sum := by
  simp only [get_sales_aggregation_location_mode]
  rw [foldl_pair_sum]
  simp only [zero_add]
  constructor
  · apply congrArg List.sum
    apply List.map_congr_left
    intro r hr
    have hlbl : (r.1.getD "GBP") ∈ distinctKeys
        ((locationModeRows filtered).map (fun r => r.1.getD "GBP")) :=
      (mem_distinctKeys _ _).mpr (List.mem_map_of_mem _ hr)
    have hne : (distinctKeys ((locationModeRows filtered).map
        (fun r => r.1.getD "GBP"))).isEmpty = false := by
      cases hE : (distinctKeys ((locationModeRows filtered).map
          (fun r => r.1.getD "GBP"))).isEmpty with
      | true =>
        rw [List.isEmpty_iff] at hE
        rw [hE] at hlbl
        exact absurd hlbl (List.not_mem_nil _)
      | false => rfl
    rw [if_neg (by rw [hne]; exact Bool.false_ne_true)]
    rw [rateOf_get_rates _ _ _ hlbl]
  · trivial

/-- C3: the location-mode aggregation groups by currency first, converts
each group's raw subtotal independently (with its own rate, rounded per
group) and sums; at a concrete two-currency input (EUR 1000 at rate 0.85,
GBP 500) the total 1350 differs from converting the summed raw amounts 1500
by either single configured rate. -/
theorem C3_cross_currency_non_contamination :
    (∀ (filtered : List SalesTransaction) (rateRows : List (String × ℚ)),
      (get_sales_aggregation_location_mode filtered rateRows).1 =
        ((locationModeRows filtered).map (fun r =>
          pyRound ((r.2.1 : ℚ) * effRate rateRows (r.1.getD "GBP")))).sum ∧
      (get_sales_aggregation_location_mode filtered rateRows).2 =
        ((locationModeRows filtered).map (fun r => r.2.2)).sum) ∧
    (get_sales_aggregation_location_mode
      [{ locationId := "L1", squareTransactionId := "O1",
         txDate := "2024-01-01", txHour := 10,
         amountMoneyAmount := 1000, amountMoneyCurrency := some "EUR",
         totalMoneyAmount := 1000, totalMoneyCurrency := some "EUR",
         totalDiscountAmount := 0, totalTaxAmount := 0, totalTipAmount := 0,
         tenderType := some "CARD", paymentStatus := "COMPLETED",
         cardBrand := none, lastFour := none, lineItems := [],
         rawData := ⟨"O1", "SQ1", "2024-01-01", 10, some "COMPLETED",
           ⟨1000, some "EUR"⟩, ⟨1000, some "EUR"⟩, 0, 0, 0, [], [], [], []⟩ },
       { locationId := "L1", squareTransactionId := "O2",
         txDate := "2024-01-01", txHour := 11,
         amountMoneyAmount := 500, amountMoneyCurrency := some "GBP",
         totalMoneyAmount := 500, totalMoneyCurrency := some "GBP",
         totalDiscountAmount := 0, totalTaxAmount := 0, totalTipAmount := 0,
         tenderType := some "CASH", paymentStatus := "COMPLETED",
         cardBrand := none, lastFour := none, lineItems := [],
         rawData := ⟨"O2", "SQ1", "2024-01-01", 11, some "COMPLETED",
           ⟨500, some "GBP"⟩, ⟨500, some "GBP"⟩, 0, 0, 0, [], [], [], []⟩ }]
      [("EUR", 17/20)]).1 = 1350 ∧
    (1350 : Int) ≠ pyRound ((1500 : ℚ) * (17/20)) ∧
    (1350 : Int) ≠ pyRound ((1500 : ℚ) * 1) := by
  refine ⟨location_mode_total_eq, ?_, by norm_num [pyRound],
    by norm_num [pyRound]⟩
  rw [(location_mode_total_eq _ _).1]
  have hrows : locationModeRows
      [{ locationId := "L1", squareTransactionId := "O1",
         txDate := "2024-01-01", txHour := 10,
         amountMoneyAmount := 1000, amountMoneyCurrency := some "EUR",
         totalMoneyAmount := 1000, totalMoneyCurrency := some "EUR",
         totalDiscountAmount := 0, totalTaxAmount := 0, totalTipAmount := 0,
         tenderType := some "CARD", paymentStatus := "COMPLETED",
         cardBrand := none, lastFour := none, lineItems := [],
         rawData := ⟨"O1", "SQ1", "2024-01-01", 10, some "COMPLETED",
           ⟨1000, some "EUR"⟩, ⟨1000, some "EUR"⟩, 0, 0, 0, [], [], [], []⟩ },
       { locationId := "L1", squareTransactionId := "O2",
         txDate := "2024-01-01", txHour := 11,
         amountMoneyAmount := 500, amountMoneyCurrency := some "GBP",
         totalMoneyAmount := 500, totalMoneyCurrency := some "GBP",
         totalDiscountAmount := 0, totalTaxAmount := 0, totalTipAmount := 0,
         tenderType := some "CASH", paymentStatus := "COMPLETED",
         cardBrand := none, lastFour := none, lineItems := [],
         rawData := ⟨"O2", "SQ1", "2024-01-01", 11, some "COMPLETED",
           ⟨500, some "GBP"⟩, ⟨500, some "GBP"⟩, 0, 0, 0, [], [], [], []⟩ }] =
      [(some "EUR", 1000, 1), (some "GBP", 500, 1)] := by decide
  rw [hrows]
  simp only [List.map_cons, List.map_nil, List.sum_cons, List.sum_nil]
  have hEUR : effRate [("EUR", (17/20 : ℚ))] ((some "EUR").getD "GBP") =
      17/20 := by
    simp [effRate, List.lookup]
  have hGBP : effRate [("EUR", (17/20 : ℚ))] ((some "GBP").getD "GBP") = 1 := by
    simp [effRate]
  rw [hEUR, hGBP]
  norm_num [pyRound]

/-! ## C6: category-mode versus location-mode totals -/

/-- The category-mode total as a closed sum: one rounded conversion per
matching transaction. -/
theorem category_mode_total_eq (filtered : List SalesTransaction)
    (catIds : List String) (rateRows : List (String × ℚ))
    (hcat : catIds.isEmpty = false) :
    (get_sales_aggregation_category_mode filtered catIds rateRows).1 =
      ((filtered.filter (fun t => txn_matches_category t.lineItems catIds)).map
        (fun t => pyRound ((t.amountMoneyAmount : ℚ) *
          effRate rateRows (t.amountMoneyCurrency.getD "GBP")))).sum := by
  simp only [get_sales_aggregation_category_mode]
  rw [if_neg (by rw [hcat]; exact Bool.false_ne_true)]
  rw [List.map_map]
  apply congrArg List.sum
  apply List.map_congr_left
  intro t ht
  simp only [Function.comp_apply]
  have hraw : (t.amountMoneyAmount, t.amountMoneyCurrency.getD "GBP") ∈
      (filtered.filter (fun t => txn_matches_category t.lineItems catIds)).map
        (fun t => (t.amountMoneyAmount, t.amountMoneyCurrency.getD "GBP")) :=
    List.mem_map_of_mem _ ht
  have hlbl : (t.amountMoneyCurrency.getD "GBP") ∈ distinctKeys
      (((filtered.filter (fun t =>
        txn_matches_category t.lineItems catIds)).map
        (fun t => (t.amountMoneyAmount,
          t.amountMoneyCurrency.getD "GBP"))).map (·.2)) :=
    (mem_distinctKeys _ _).mpr (List.mem_map_of_mem _ hraw)
  have hne : (distinctKeys (((filtered.filter (fun t =>
      txn_matches_category t.lineItems catIds)).map
      (fun t => (t.amountMoneyAmount,
        t.amountMoneyCurrency.getD "GBP"))).map (·.2))).isEmpty = false := by
    cases hE : (distinctKeys (((filtered.filter (fun t =>
        txn_matches_category t.lineItems catIds)).map
        (fun t => (t.amountMoneyAmount,
          t.amountMoneyCurrency.getD "GBP"))).map (·.2))).isEmpty with
    | true =>
      rw [List.isEmpty_iff] at hE
      rw [hE] at hlbl
      exact absurd hlbl (List.not_mem_nil _)
    | false => rfl
  rw [if_neg (by rw [hne]; exact Bool.false_ne_true)]
  rw [rateOf_get_rates _ _ _ hlbl]

/-- C6 counterexample: two matching COMPLETED EUR transactions of amount 1
at rate 0.6 — category mode rounds per transaction (1 + 1 = 2) while
location mode rounds the group subtotal (round(1.2) = 1), so the
category-mode total exceeds the location-mode total over the same rows. -/
theorem C6_category_subset_counterexample :
    ¬((get_sales_aggregation_category_mode
      [{ locationId := "L1", squareTransactionId := "O1",
         txDate := "2024-01-01", txHour := 10,
         amountMoneyAmount := 1, amountMoneyCurrency := some "EUR",
         totalMoneyAmount := 1, totalMoneyCurrency := some "EUR",
         totalDiscountAmount := 0, totalTaxAmount := 0, totalTipAmount := 0,
         tenderType := some "CARD", paymentStatus := "COMPLETED",
         cardBrand := none, lastFour := none,
         lineItems := [⟨"Item", 1, 1, 1, "P", ""⟩],
         rawData := ⟨"O1", "SQ1", "2024-01-01", 10, some "COMPLETED",
           ⟨1, some "EUR"⟩, ⟨1, some "EUR"⟩, 0, 0, 0, [], [], [], []⟩ },
       { locationId := "L1", squareTransactionId := "O2",
         txDate := "2024-01-01", txHour := 11,
         amountMoneyAmount := 1, amountMoneyCurrency := some "EUR",
         totalMoneyAmount := 1, totalMoneyCurrency := some "EUR",
         totalDiscountAmount := 0, totalTaxAmount := 0, totalTipAmount := 0,
         tenderType := some "CARD", paymentStatus := "COMPLETED",
         cardBrand := none, lastFour := none,
         lineItems := [⟨"Item", 1, 1, 1, "P", ""⟩],
         rawData := ⟨"O2", "SQ1", "2024-01-01", 11, some "COMPLETED",
           ⟨1, some "EUR"⟩, ⟨1, some "EUR"⟩, 0, 0, 0, [], [], [], []⟩ }]
      ["P"] [("EUR", 3/5)]).1 ≤
    (get_sales_aggregation_location_mode
      [{ locationId := "L1", squareTransactionId := "O1",
         txDate := "2024-01-01", txHour := 10,
         amountMoneyAmount := 1, amountMoneyCurrency := some "EUR",
         totalMoneyAmount := 1, totalMoneyCurrency := some "EUR",
         totalDiscountAmount := 0, totalTaxAmount := 0, totalTipAmount := 0,
         tenderType := some "CARD", paymentStatus := "COMPLETED",
         cardBrand := none, lastFour := none,
         lineItems := [⟨"Item", 1, 1, 1, "P", ""⟩],
         rawData := ⟨"O1", "SQ1", "2024-01-01", 10, some "COMPLETED",
           ⟨1, some "EUR"⟩, ⟨1, some "EUR"⟩, 0, 0, 0, [], [], [], []⟩ },
       { locationId := "L1", squareTransactionId := "O2",
         txDate := "2024-01-01", txHour := 11,
         amountMoneyAmount := 1, amountMoneyCurrency := some "EUR",
         totalMoneyAmount := 1, totalMoneyCurrency := some "EUR",
         totalDiscountAmount := 0, totalTaxAmount := 0, totalTipAmount := 0,
         tenderType := some "CARD", paymentStatus := "COMPLETED",
         cardBrand := none, lastFour := none,
         lineItems := [⟨"Item", 1, 1, 1, "P", ""⟩],
         rawData := ⟨"O2", "SQ1", "2024-01-01", 11, some "COMPLETED",
           ⟨1, some "EUR"⟩, ⟨1, some "EUR"⟩, 0, 0, 0, [], [], [], []⟩ }]
      [("EUR", 3/5)]).1) := by
  rw [category_mode_total_eq _ ["P"] _ rfl, (location_mode_total_eq _ _).1]
  have hfil : List.filter
      (fun t : SalesTransaction => txn_matches_category t.lineItems ["P"])
      [{ locationId := "L1", squareTransactionId := "O1",
         txDate := "2024-01-01", txHour := 10,
         amountMoneyAmount := 1, amountMoneyCurrency := some "EUR",
         totalMoneyAmount := 1, totalMoneyCurrency := some "EUR",
         totalDiscountAmount := 0, totalTaxAmount := 0, totalTipAmount := 0,
         tenderType := some "CARD", paymentStatus := "COMPLETED",
         cardBrand := none, lastFour := none,
         lineItems := [⟨"Item", 1, 1, 1, "P", ""⟩],
         rawData := ⟨"O1", "SQ1", "2024-01-01", 10, some "COMPLETED",
           ⟨1, some "EUR"⟩, ⟨1, some "EUR"⟩, 0, 0, 0, [], [], [], []⟩ },
       { locationId := "L1", squareTransactionId := "O2",
         txDate := "2024-01-01", txHour := 11,
         amountMoneyAmount := 1, amountMoneyCurrency := some "EUR",
         totalMoneyAmount := 1, totalMoneyCurrency := some "EUR",
         totalDiscountAmount := 0, totalTaxAmount := 0, totalTipAmount := 0,
         tenderType := some "CARD", paymentStatus := "COMPLETED",
         cardBrand := none, lastFour := none,
         lineItems := [⟨"Item", 1, 1, 1, "P", ""⟩],
         rawData := ⟨"O2", "SQ1", "2024-01-01", 11, some "COMPLETED",
           ⟨1, some "EUR"⟩, ⟨1, some "EUR"⟩, 0, 0, 0, [], [], [], []⟩ }] =
      [{ locationId := "L1", squareTransactionId := "O1",
         txDate := "2024-01-01", txHour := 10,
         amountMoneyAmount := 1, amountMoneyCurrency := some "EUR",
         totalMoneyAmount := 1, totalMoneyCurrency := some "EUR",
         totalDiscountAmount := 0, totalTaxAmount := 0, totalTipAmount := 0,
         tenderType := some "CARD", paymentStatus := "COMPLETED",
         cardBrand := none, lastFour := none,
         lineItems := [⟨"Item", 1, 1, 1, "P", ""⟩],
         rawData := ⟨"O1", "SQ1", "2024-01-01", 10, some "COMPLETED",
           ⟨1, some "EUR"⟩, ⟨1, some "EUR"⟩, 0, 0, 0, [], [], [], []⟩ },
       { locationId := "L1", squareTransactionId := "O2",
         txDate := "2024-01-01", txHour := 11,
         amountMoneyAmount := 1, amountMoneyCurrency := some "EUR",
         totalMoneyAmount := 1, totalMoneyCurrency := some "EUR",
         totalDiscountAmount := 0, totalTaxAmount := 0, totalTipAmount := 0,
         tenderType := some "CARD", paymentStatus := "COMPLETED",
         cardBrand := none, lastFour := none,
         lineItems := [⟨"Item", 1, 1, 1, "P", ""⟩],
         rawData := ⟨"O2", "SQ1", "2024-01-01", 11, some "COMPLETED",
           ⟨1, some "EUR"⟩, ⟨1, some "EUR"⟩, 0, 0, 0, [], [], [], []⟩ }] := by
    decide
  have hrows : locationModeRows
      [{ locationId := "L1", squareTransactionId := "O1",
         txDate := "2024-01-01", txHour := 10,
         amountMoneyAmount := 1, amountMoneyCurrency := some "EUR",
         totalMoneyAmount := 1, totalMoneyCurrency := some "EUR",
         totalDiscountAmount := 0, totalTaxAmount := 0, totalTipAmount := 0,
         tenderType := some "CARD", paymentStatus := "COMPLETED",
         cardBrand := none, lastFour := none,
         lineItems := [⟨"Item", 1, 1, 1, "P", ""⟩],
         rawData := ⟨"O1", "SQ1", "2024-01-01", 10, some "COMPLETED",
           ⟨1, some "EUR"⟩, ⟨1, some "EUR"⟩, 0, 0, 0, [], [], [], []⟩ },
       { locationId := "L1", squareTransactionId := "O2",
         txDate := "2024-01-01", txHour := 11,
         amountMoneyAmount := 1, amountMoneyCurrency := some "EUR",
         totalMoneyAmount := 1, totalMoneyCurrency := some "EUR",
         totalDiscountAmount := 0, totalTaxAmount := 0, totalTipAmount := 0,
         tenderType := some "CARD", paymentStatus := "COMPLETED",
         cardBrand := none, lastFour := none,
         lineItems := [⟨"Item", 1, 1, 1, "P", ""⟩],
         rawData := ⟨"O2", "SQ1", "2024-01-01", 11, some "COMPLETED",
           ⟨1, some "EUR"⟩, ⟨1, some "EUR"⟩, 0, 0, 0, [], [], [], []⟩ }] =
      [(some "EUR", 2, 2)] := by
    decide
  rw [hfil, hrows]
  simp only [List.map_cons, List.map_nil, List.sum_cons, List.sum_nil]
  have hEUR : effRate [("EUR", (3/5 : ℚ))] ((some "EUR").getD "GBP") = 3/5 := by
    simp [effRate, List.lookup]
  rw [hEUR]
  norm_num [pyRound]

theorem mem_of_lookup_eq_some {α β : Type} [BEq α] [LawfulBEq α]
    (l : List (α × β)) (a : α) (b : β) (h : l.lookup a = some b) :
    (a, b) ∈ l := by
  induction l with
  | nil => simp [List.lookup] at h
  | cons p ps ih =>
    obtain ⟨k, v⟩ := p
    cases hak : (a == k) with
    | true =>
      simp only [List.lookup, hak] at h
      injection h with hvb
      have hk : a = k := eq_of_beq hak
      rw [hk, ← hvb]
      simp
    | false =>
      simp only [List.lookup, hak] at h
      exact List.mem_cons_of_mem _ (ih h)

theorem effRate_nonneg (rateRows : List (String × ℚ)) (c : String)
    (hrate : ∀ p ∈ rateRows, 0 ≤ p.2) : 0 ≤ effRate rateRows c := by
  rw [effRate]
  by_cases hg : c = "GBP"
  · rw [if_pos hg]
    norm_num
  · rw [if_neg hg]
    cases hlk : rateRows.lookup c with
    | none => simp
    | some r =>
      simp only [Option.getD_some]
      exact hrate (c, r) (mem_of_lookup_eq_some _ _ _ hlk)

theorem sum_filter_add_sum_filter_not {α : Type} (l : List α) (p : α → Bool)
    (f : α → ℚ) :
    ((l.filter p).map f).sum + ((l.filter (fun a => !(p a))).map f).sum =
      (l.map f).sum := by
  induction l with
  | nil => simp
  | cons a as ih =>
    by_cases hpa : p a = true
    · rw [List.filter_cons, List.filter_cons, if_pos hpa,
        if_neg (by rw [hpa]; simp)]
      simp only [List.map_cons, List.sum_cons]
      rw [← ih]
      ring
    · have hpf : p a = false := Bool.eq_false_iff.mpr hpa
      rw [List.filter_cons, List.filter_cons, if_neg hpa,
        if_pos (by rw [hpf]; rfl)]
      simp only [List.map_cons, List.sum_cons]
      rw [← ih]
      ring

theorem sum_over_keys {α κ : Type} [BEq κ] [LawfulBEq κ] (ks : List κ)
    (key : α → κ) (f : α → ℚ) :
    ∀ l : List α, (∀ x ∈ l, key x ∈ ks) → ks.Nodup →
    (ks.map (fun k => ((l.filter (fun x => key x == k)).map f).sum)).sum =
      (l.map f).sum := by
  induction ks with
  | nil =>
    intro l hcov _
    have hl : l = [] := by
      cases l with
      | nil => rfl
      | cons a as => exact absurd (hcov a (by simp)) (List.not_mem_nil _)
    rw [hl]
    simp
  | cons k ks ih =>
    intro l hcov hnd
    rw [List.map_cons, List.sum_cons]
    rw [← sum_filter_add_sum_filter_not l (fun x => key x == k) f]
    congr 1
    have hcov2 : ∀ x ∈ l.filter (fun x => !(key x == k)), key x ∈ ks := by
      intro x hx
      rw [List.mem_filter] at hx
      rcases List.mem_cons.mp (hcov x hx.1) with h | h
      · exfalso
        have h2 := hx.2
        rw [(beq_iff_eq (a := key x) (b := k)).mpr h] at h2
        simp at h2
      · exact h
    rw [← ih (l.filter (fun x => !(key x == k))) hcov2
      (List.nodup_cons.mp hnd).2]
    apply congrArg List.sum
    apply List.map_congr_left
    intro k' hk'
    apply congrArg List.sum
    apply congrArg (List.map f)
    rw [filter_filter_comb]
    apply List.filter_congr
    intro x hx
    by_cases hxk' : key x = k'
    · have hk'nek : k' ≠ k := by
        intro hc
        exact (List.nodup_cons.mp hnd).1 (hc ▸ hk')
      have h1 : (key x == k') = true := beq_iff_eq.mpr hxk'
      have h2 : (key x == k) = false := by
        rw [beq_eq_false_iff_ne, hxk']
        exact hk'nek
      rw [h1, h2]
      rfl
    · have h1 : (key x == k') = false := by
        rw [beq_eq_false_iff_ne]
        exact hxk'
      rw [h1]
      simp

theorem sum_int_cast (l : List Int) :
    ((l.sum : Int) : ℚ) = (l.map (fun x : Int => (x : ℚ))).sum := by
  induction l with
  | nil => simp
  | cons a as ih =>
    rw [List.sum_cons, List.map_cons, List.sum_cons]
    push_cast
    rfl

theorem sum_mul_right {α : Type} (l : List α) (f : α → ℚ) (r : ℚ) :
    (l.map f).sum * r = (l.map (fun x => f x * r)).sum := by
  induction l with
  | nil => simp
  | cons a as ih => simp [List.sum_cons, add_mul, ih]

/-- The exact (pre-rounding) location-mode total is the per-transaction sum
of amount times effective rate: grouping by currency and converting each
group is, before rounding, the same as converting row by row. -/
theorem locationModeExactTotal_eq (filtered : List SalesTransaction)
    (rateRows : List (String × ℚ)) :
    locationModeExactTotal filtered rateRows =
      (filtered.map (fun t => (t.amountMoneyAmount : ℚ) *
        effRate rateRows (t.amountMoneyCurrency.getD "GBP"))).sum := by
  rw [locationModeExactTotal, locationModeRows, List.map_map]
  trans ((distinctKeys (filtered.map (·.amountMoneyCurrency))).map
    (fun c => ((filtered.filter
      (fun t => t.amountMoneyCurrency == c)).map
      (fun t => (t.amountMoneyAmount : ℚ) *
        effRate rateRows (t.amountMoneyCurrency.getD "GBP"))).sum)).sum
  · apply congrArg List.sum
    apply List.map_congr_left
    intro c hc
    simp only [Function.comp_apply]
    rw [sum_int_cast, sum_mul_right, List.map_map]
    apply congrArg List.sum
    apply List.map_congr_left
    intro t ht
    simp only [Function.comp_apply]
    rw [List.mem_filter] at ht
    have hcur : t.amountMoneyCurrency = c := beq_iff_eq.mp ht.2
    rw [hcur]
  · exact sum_over_keys (distinctKeys (filtered.map (·.amountMoneyCurrency)))
      (fun t : SalesTransaction => t.amountMoneyCurrency)
      (fun t => (t.amountMoneyAmount : ℚ) *
        effRate rateRows (t.amountMoneyCurrency.getD "GBP"))
      filtered
      (fun x hx => (mem_distinctKeys _ _).mpr (List.mem_map_of_mem _ hx))
      (distinctKeys_nodup _)

/-- C6 amended: category mode counts a subset of the window's transactions,
so with nonnegative amounts and rates its exact (pre-rounding) revenue
total never exceeds the exact location-mode total over the same rows; the
rounded totals, however, can violate the inequality because category mode
rounds per matching transaction while location mode rounds once per
currency group. -/
theorem C6_category_subset_amended (filtered : List SalesTransaction)
    (catIds : List String) (rateRows : List (String × ℚ))
    (hamt : ∀ t ∈ filtered, 0 ≤ t.amountMoneyAmount)
    (hrate : ∀ p ∈ rateRows, 0 ≤ p.2) :
    categoryModeExactTotal filtered catIds rateRows ≤
      locationModeExactTotal filtered rateRows ∧
    (filtered.filter (fun t =>
      txn_matches_category t.lineItems catIds)).length ≤ filtered.length := by
  constructor
  · rw [categoryModeExactTotal, locationModeExactTotal_eq]
    rw [← sum_filter_add_sum_filter_not filtered
      (fun t => txn_matches_category t.lineItems catIds)
      (fun t => (t.amountMoneyAmount : ℚ) *
        effRate rateRows (t.amountMoneyCurrency.getD "GBP"))]
    have hnn : 0 ≤ ((filtered.filter (fun t =>
        !(txn_matches_category t.lineItems catIds))).map
        (fun t => (t.amountMoneyAmount : ℚ) *
          effRate rateRows (t.amountMoneyCurrency.getD "GBP"))).sum := by
      apply List.sum_nonneg
      intro x hx
      rw [List.mem_map] at hx
      obtain ⟨t, htm, hxt⟩ := hx
      rw [← hxt]
      rw [List.mem_filter] at htm
      exact mul_nonneg (by exact_mod_cast hamt t htm.1)
        (effRate_nonneg rateRows _ hrate)
    linarith
  · exact List.length_filter_le _ _

/-- Witness for the amended C6 at the counterexample's input: the exact
totals do satisfy the inequality (both are 6/5) even though the rounded
totals violate it. -/
theorem C6_category_subset_amended_witness :
    categoryModeExactTotal
      [{ locationId := "L1", squareTransactionId := "O1",
         txDate := "2024-01-01", txHour := 10,
         amountMoneyAmount := 1, amountMoneyCurrency := some "EUR",
         totalMoneyAmount := 1, totalMoneyCurrency := some "EUR",
         totalDiscountAmount := 0, totalTaxAmount := 0, totalTipAmount := 0,
         tenderType := some "CARD", paymentStatus := "COMPLETED",
         cardBrand := none, lastFour := none,
         lineItems := [⟨"Item", 1, 1, 1, "P", ""⟩],
         rawData := ⟨"O1", "SQ1", "2024-01-01", 10, some "COMPLETED",
           ⟨1, some "EUR"⟩, ⟨1, some "EUR"⟩, 0, 0, 0, [], [], [], []⟩ }]
      ["P"] [("EUR", 3/5)] ≤
    locationModeExactTotal
      [{ locationId := "L1", squareTransactionId := "O1",
         txDate := "2024-01-01", txHour := 10,
         amountMoneyAmount := 1, amountMoneyCurrency := some "EUR",
         totalMoneyAmount := 1, totalMoneyCurrency := some "EUR",
         totalDiscountAmount := 0, totalTaxAmount := 0, totalTipAmount := 0,
         tenderType := some "CARD", paymentStatus := "COMPLETED",
         cardBrand := none, lastFour := none,
         lineItems := [⟨"Item", 1, 1, 1, "P", ""⟩],
         rawData := ⟨"O1", "SQ1", "2024-01-01", 10, some "COMPLETED",
           ⟨1, some "EUR"⟩, ⟨1, some "EUR"⟩, 0, 0, 0, [], [], [], []⟩ }]
      [("EUR", 3/5)] :=
  (C6_category_subset_amended
    [{ locationId := "L1", squareTransactionId := "O1",
       txDate := "2024-01-01", txHour := 10,
       amountMoneyAmount := 1, amountMoneyCurrency := some "EUR",
       totalMoneyAmount := 1, totalMoneyCurrency := some "EUR",
       totalDiscountAmount := 0, totalTaxAmount := 0, totalTipAmount := 0,
       tenderType := some "CARD", paymentStatus := "COMPLETED",
       cardBrand := none, lastFour := none,
       lineItems := [⟨"Item", 1, 1, 1, "P", ""⟩],
       rawData := ⟨"O1", "SQ1", "2024-01-01", 10, some "COMPLETED",
         ⟨1, some "EUR"⟩, ⟨1, some "EUR"⟩, 0, 0, 0, [], [], [], []⟩ }]
    ["P"] [("EUR", 3/5)]
    (by decide)
    (by
      intro p hp
      rw [List.mem_singleton] at hp
      rw [hp]
      norm_num)).1

/-! ## C7: keyword propagation to descendants -/

/-- Category ids of the universe not yet in the accumulated set; the
decreasing measure that makes the Python recursion (which inserts a fresh
id before every recursive call) terminate. -/
def missingCount (univ acc : List String) : Nat :=
  (univ.filter (fun u => decide (u ∉ acc))).length

theorem length_filter_le_length_filter {α : Type} (l : List α)
    (p q : α → Bool) (h : ∀ x ∈ l, q x = true → p x = true) :
    (l.filter q).length ≤ (l.filter p).length := by
  induction l with
  | nil => exact le_refl 0
  | cons a as ih =>
    have ih2 := ih (fun x hx => h x (List.mem_cons_of_mem a hx))
    by_cases hqa : q a = true
    · rw [List.filter_cons, List.filter_cons, if_pos hqa,
        if_pos (h a (by simp) hqa)]
      simpa using ih2
    · rw [List.filter_cons, if_neg hqa, List.filter_cons]
      by_cases hpa : p a = true
      · rw [if_pos hpa]
        exact le_trans ih2 (by simp)
      · rw [if_neg hpa]
        exact ih2

theorem missingCount_mono (univ acc acc' : List String)
    (h : ∀ x ∈ acc, x ∈ acc') :
    missingCount univ acc' ≤ missingCount univ acc := by
  apply length_filter_le_length_filter
  intro x _ hx
  rw [decide_eq_true_eq] at hx ⊢
  exact fun hmem => hx (h x hmem)

theorem missingCount_lt (univ acc : List String) (y : String)
    (hy : y ∈ univ) (hny : y ∉ acc) :
    missingCount univ (y :: acc) < missingCount univ acc := by
  induction univ with
  | nil => exact absurd hy (List.not_mem_nil y)
  | cons u us ih =>
    simp only [missingCount, List.filter_cons]
    by_cases huy : u = y
    · have h1 : (decide (u ∉ (y :: acc))) = false := by
        simp [huy]
      have h2 : (decide (u ∉ acc)) = true := by
        simp [huy, hny]
      rw [if_neg (by rw [h1]; exact Bool.false_ne_true), if_pos h2]
      rw [List.length_cons]
      exact Nat.lt_succ_of_le (missingCount_mono us acc (y :: acc)
        (fun x hx => List.mem_cons_of_mem y hx))
    · have hyus : y ∈ us := by
        rcases List.mem_cons.mp hy with h | h
        · exact absurd h.symm huy
        · exact h
      have ih2 := ih hyus
      have hcc : (decide (u ∉ (y :: acc))) = (decide (u ∉ acc)) := by
        by_cases hua : u ∈ acc
        · simp [hua, List.mem_cons_of_mem y hua]
        · have h2 : u ∉ (y :: acc) := by
            intro hcontra
            rcases List.mem_cons.mp hcontra with h | h
            · exact huy h
            · exact hua h
          simp [hua, h2]
      rw [hcc]
      cases (decide (u ∉ acc)) with
      | true =>
        rw [if_pos rfl, if_pos rfl, List.length_cons, List.length_cons]
        exact Nat.succ_lt_succ ih2
      | false =>
        rw [if_neg Bool.false_ne_true, if_neg Bool.false_ne_true]
        exact ih2

theorem missingCount_le_univ (univ acc : List String) :
    missingCount univ acc ≤ univ.length :=
  List.length_filter_le _ _

/-- One step of the `_add_descendants` child fold, named for readability in
the proofs below. -/
def addDescStep (children : String → List String) (fuel : Nat)
    (a : List String) (child : String) : List String :=
  if child ∈ a then a else addDescendants children fuel (child :: a) child

theorem addDescendants_succ (children : String → List String) (fuel : Nat)
    (acc : List String) (catId : String) :
    addDescendants children (fuel + 1) acc catId
      = (children catId).foldl (addDescStep children fuel) acc := rfl

/-- With fuel exceeding the number of ids still missing from the accumulator,
`addDescendants` extends its accumulator, stays inside the id universe,
contains every child of the start node, and every id it adds is closed under
`children`.  This is the Lean image of the Python recursion's termination
argument: each recursive call inserts a fresh id first. -/
theorem addDescendants_spec (children : String → List String)
    (univ : List String) (hchU : ∀ v ch, ch ∈ children v → ch ∈ univ) :
    ∀ fuel acc c, (∀ x ∈ acc, x ∈ univ) → missingCount univ acc < fuel →
      (∀ x ∈ acc, x ∈ addDescendants children fuel acc c) ∧
      (∀ x ∈ addDescendants children fuel acc c, x ∈ univ) ∧
      (∀ ch ∈ children c, ch ∈ addDescendants children fuel acc c) ∧
      (∀ v ∈ addDescendants children fuel acc c,
        v ∈ acc ∨ ∀ ch ∈ children v, ch ∈ addDescendants children fuel acc c) := by
  intro fuel
  induction fuel with
  | zero => intro acc c _ hcnt; exact absurd hcnt (Nat.not_lt_zero _)
  | succ n ih =>
    intro acc c hacc hcnt
    have go : ∀ cs : List String, (∀ ch ∈ cs, ch ∈ univ) →
        ∀ a : List String, (∀ x ∈ acc, x ∈ a) → (∀ x ∈ a, x ∈ univ) →
        (∀ v ∈ a, v ∈ acc ∨ ∀ ch2 ∈ children v, ch2 ∈ a) →
        (∀ x ∈ a, x ∈ cs.foldl (addDescStep children n) a) ∧
        (∀ x ∈ cs.foldl (addDescStep children n) a, x ∈ univ) ∧
        (∀ ch ∈ cs, ch ∈ cs.foldl (addDescStep children n) a) ∧
        (∀ v ∈ cs.foldl (addDescStep children n) a,
          v ∈ acc ∨ ∀ ch2 ∈ children v,
            ch2 ∈ cs.foldl (addDescStep children n) a) := by
      intro cs
      induction cs with
      | nil =>
        intro _ a h1 h2 h3
        exact ⟨fun x hx => hx, h2,
          fun ch hch => absurd hch (List.not_mem_nil ch), h3⟩
      | cons ch cs ihc =>
        intro hcs a h1 h2 h3
        rw [List.foldl_cons]
        by_cases hch : ch ∈ a
        · have hstep : addDescStep children n a ch = a := by
            rw [addDescStep, if_pos hch]
          rw [hstep]
          obtain ⟨g1, g2, g3, g4⟩ :=
            ihc (fun x hx => hcs x (List.mem_cons_of_mem _ hx)) a h1 h2 h3
          refine ⟨g1, g2, ?_, g4⟩
          intro x hx
          rcases List.mem_cons.mp hx with rfl | hx2
          · exact g1 x hch
          · exact g3 x hx2
        · have hchu : ch ∈ univ := hcs ch (List.mem_cons_self _ _)
          have hcnt2 : missingCount univ (ch :: a) < n := by
            have hm1 : missingCount univ a ≤ missingCount univ acc :=
              missingCount_mono univ acc a h1
            have hm2 : missingCount univ (ch :: a) < missingCount univ a :=
              missingCount_lt univ a ch hchu hch
            omega
          obtain ⟨r1, r2, r3, r4⟩ := ih (ch :: a) ch
            (fun x hx => by
              rcases List.mem_cons.mp hx with rfl | hx2
              · exact hchu
              · exact h2 x hx2) hcnt2
          have hstep : addDescStep children n a ch
              = addDescendants children n (ch :: a) ch := by
            rw [addDescStep, if_neg hch]
          rw [hstep]
          have h1' : ∀ x ∈ acc, x ∈ addDescendants children n (ch :: a) ch :=
            fun x hx => r1 x (List.mem_cons_of_mem _ (h1 x hx))
          have h3' : ∀ v ∈ addDescendants children n (ch :: a) ch,
              v ∈ acc ∨ ∀ ch2 ∈ children v,
                ch2 ∈ addDescendants children n (ch :: a) ch := by
            intro v hv
            rcases r4 v hv with hva | hcl
            · rcases List.mem_cons.mp hva with rfl | hva2
              · exact Or.inr r3
              · rcases h3 v hva2 with hacc2 | hclA
                · exact Or.inl hacc2
                · exact Or.inr (fun c2 hc2 =>
                    r1 c2 (List.mem_cons_of_mem _ (hclA c2 hc2)))
            · exact Or.inr hcl
          obtain ⟨g1, g2, g3, g4⟩ :=
            ihc (fun x hx => hcs x (List.mem_cons_of_mem _ hx))
              (addDescendants children n (ch :: a) ch) h1' r2 h3'
          refine ⟨?_, g2, ?_, g4⟩
          · intro x hx
            exact g1 x (r1 x (List.mem_cons_of_mem _ hx))
          · intro x hx
            rcases List.mem_cons.mp hx with rfl | hx2
            · exact g1 x (r1 x (List.mem_cons_self _ _))
            · exact g3 x hx2
    rw [addDescendants_succ]
    exact go (children c) (fun ch hch => hchU c ch hch) acc
      (fun x hx => hx) hacc (fun v hv => Or.inl hv)

/-- With fuel exceeding the size of the id universe, `expandMatches`
contains its seed set and is closed under `children`: the snapshot loop plus
the recursive `_add_descendants` walk reaches every descendant of every
directly matched category. -/
theorem expandMatches_spec (children : String → List String)
    (univ : List String) (hchU : ∀ v ch, ch ∈ children v → ch ∈ univ)
    (fuel : Nat) (hfuel : univ.length < fuel)
    (s0 : List String) (hs0 : ∀ x ∈ s0, x ∈ univ) :
    (∀ x ∈ s0, x ∈ expandMatches children fuel s0) ∧
    (∀ v ∈ expandMatches children fuel s0,
      ∀ ch ∈ children v, ch ∈ expandMatches children fuel s0) := by
  have go : ∀ cs : List String, ∀ a : List String,
      (∀ x ∈ a, x ∈ univ) →
      (∀ v ∈ a, v ∈ cs ∨ ∀ ch ∈ children v, ch ∈ a) →
      (∀ x ∈ a,
        x ∈ cs.foldl (fun acc c => addDescendants children fuel acc c) a) ∧
      (∀ x ∈ cs.foldl (fun acc c => addDescendants children fuel acc c) a,
        x ∈ univ) ∧
      (∀ v ∈ cs.foldl (fun acc c => addDescendants children fuel acc c) a,
        ∀ ch ∈ children v,
          ch ∈ cs.foldl (fun acc c => addDescendants children fuel acc c) a) := by
    intro cs
    induction cs with
    | nil =>
      intro a h2 h3
      refine ⟨fun x hx => hx, h2, ?_⟩
      intro v hv
      rcases h3 v hv with hvc | hcl
      · exact absurd hvc (List.not_mem_nil v)
      · exact hcl
    | cons c cs ihc =>
      intro a h2 h3
      rw [List.foldl_cons]
      have hcnt : missingCount univ a < fuel :=
        lt_of_le_of_lt (missingCount_le_univ univ a) hfuel
      obtain ⟨r1, r2, r3, r4⟩ :=
        addDescendants_spec children univ hchU fuel a c h2 hcnt
      have h3' : ∀ v ∈ addDescendants children fuel a c,
          v ∈ cs ∨ ∀ ch ∈ children v,
            ch ∈ addDescendants children fuel a c := by
        intro v hv
        rcases r4 v hv with hva | hcl
        · rcases h3 v hva with hvcs | hclA
          · rcases List.mem_cons.mp hvcs with rfl | hvcs2
            · exact Or.inr r3
            · exact Or.inl hvcs2
          · exact Or.inr (fun ch hch => r1 ch (hclA ch hch))
        · exact Or.inr hcl
      obtain ⟨g1, g2, g3⟩ := ihc (addDescendants children fuel a c) r2 h3'
      exact ⟨fun x hx => g1 x (r1 x hx), g2, g3⟩
  obtain ⟨g1, _, g3⟩ := go s0 s0 hs0 (fun v hv => Or.inl hv)
  exact ⟨g1, g3⟩

/-- `d` is a strict descendant of `p` in the category parent graph:
reachable by one or more parent-to-child edges. -/
inductive IsDescendant (children : String → List String) :
    String → String → Prop
  | child {p c : String} : c ∈ children p → IsDescendant children p c
  | trans {p m c : String} : IsDescendant children p m → c ∈ children m →
      IsDescendant children p c

theorem descendant_mem_of_closed (children : String → List String)
    (M : List String) (hcl : ∀ v ∈ M, ∀ ch ∈ children v, ch ∈ M)
    (p : String) (hp : p ∈ M) (d : String)
    (hd : IsDescendant children p d) : d ∈ M := by
  induction hd with
  | child h => exact hcl p hp _ h
  | trans h1 h2 ihm => exact hcl _ ihm _ h2

/-- **C7** (keyword propagation to descendants): if category `c` directly
matches some client keyword `kw` (case-insensitive substring of a name in
its chain), then every descendant category `d` of `c` in the parent graph
ends up in the expanded matched set, and every membership row filing a
product under `d` puts that product id into the recomputed product set —
regardless of whether `d`'s own names match any keyword. -/
theorem C7_keyword_propagation
    (cats : List CatalogCategory)
    (memberships : List CatalogItemCategoryMembership)
    (keywords : List String) (c : CatalogCategory) (kw : String)
    (hc : c ∈ cats) (hkw : kw ∈ keywords)
    (hmatch : (catNames c).any (keywordMatches kw) = true)
    (d : String)
    (hd : IsDescendant (childrenMap cats) c.squareCategoryId d) :
    d ∈ expandMatches (childrenMap cats) (cats.length + 1)
        (directlyMatchedCats cats keywords) ∧
    ∀ m ∈ memberships, m.categoryId = d →
      m.catalogObjectId ∈ recompute_client_mappings cats memberships keywords := by
  have hchU : ∀ v ch, ch ∈ childrenMap cats v →
      ch ∈ cats.map (·.squareCategoryId) := by
    intro v ch hch
    rw [childrenMap] at hch
    obtain ⟨c2, hc2, hc2e⟩ := List.mem_map.mp hch
    exact List.mem_map.mpr ⟨c2, (List.mem_filter.mp hc2).1, hc2e⟩
  have hs0U : ∀ x ∈ directlyMatchedCats cats keywords,
      x ∈ cats.map (·.squareCategoryId) := by
    intro x hx
    rw [directlyMatchedCats] at hx
    obtain ⟨c2, hc2, hc2e⟩ := List.mem_map.mp hx
    exact List.mem_map.mpr ⟨c2, (List.mem_filter.mp hc2).1, hc2e⟩
  have hlen : (cats.map (·.squareCategoryId)).length < cats.length + 1 := by
    rw [List.length_map]
    omega
  obtain ⟨g1, g3⟩ := expandMatches_spec (childrenMap cats)
    (cats.map (·.squareCategoryId)) hchU (cats.length + 1) hlen
    (directlyMatchedCats cats keywords) hs0U
  have hp0 : c.squareCategoryId ∈ directlyMatchedCats cats keywords := by
    rw [directlyMatchedCats]
    refine List.mem_map.mpr ⟨c, List.mem_filter.mpr ⟨hc, ?_⟩, rfl⟩
    exact List.any_eq_true.mpr ⟨kw, hkw, hmatch⟩
  have hdM : d ∈ expandMatches (childrenMap cats) (cats.length + 1)
      (directlyMatchedCats cats keywords) :=
    descendant_mem_of_closed (childrenMap cats) _ g3 c.squareCategoryId
      (g1 _ hp0) d hd
  refine ⟨hdM, ?_⟩
  intro m hm hmd
  have hke : keywords.isEmpty = false := by
    cases keywords with
    | nil => exact absurd hkw (List.not_mem_nil kw)
    | cons a as => rfl
  rw [recompute_client_mappings, hke, if_neg Bool.false_ne_true]
  refine (mem_distinctKeys _ _).mpr ?_
  refine List.mem_map.mpr ⟨m, List.mem_filter.mpr ⟨hm, ?_⟩, rfl⟩
  rw [hmd]
  exact List.elem_iff.mpr hdM

/-- Concrete C7 instance: keyword "rock" matches category `C1` ("Rock");
its child `C2` ("Vinyl", which matches no keyword itself) is in the expanded
matched set, and product `P1` filed under `C2` is in the recomputed product
set. -/
theorem C7_keyword_propagation_witness :
    "C2" ∈ expandMatches
        (childrenMap [⟨"C1", "Rock", none, []⟩, ⟨"C2", "Vinyl", some "C1", []⟩])
        3
        (directlyMatchedCats
          [⟨"C1", "Rock", none, []⟩, ⟨"C2", "Vinyl", some "C1", []⟩]
          ["rock"]) ∧
    "P1" ∈ recompute_client_mappings
        [⟨"C1", "Rock", none, []⟩, ⟨"C2", "Vinyl", some "C1", []⟩]
        [⟨"P1", "C2"⟩] ["rock"] := by
  obtain ⟨h1, h2⟩ := C7_keyword_propagation
    [⟨"C1", "Rock", none, []⟩, ⟨"C2", "Vinyl", some "C1", []⟩]
    [⟨"P1", "C2"⟩] ["rock"] ⟨"C1", "Rock", none, []⟩ "rock"
    (by decide) (by decide) (by decide) "C2"
    (IsDescendant.child (by decide))
  exact ⟨h1, h2 ⟨"P1", "C2"⟩ (by decide) rfl⟩

end TPReporting
